import Mathlib

/-! # sendtokindle: the message builder and the SMTP delivery of `cmd/root.go`

A shallow embedding of `sendToKindle` (`src/cmd/root.go`, lines 68-144).

* Go strings and byte slices are lists of bytes, `List Nat`; a byte is a natural
  number below 256, and string literals of the source are written as Lean string
  literals and turned into bytes by `bytesOf` (they are ASCII).
* The Go standard-library functions that `sendToKindle` calls
  (`base64.StdEncoding`, `fmt.Sprintf`, `path.Base`, `strings.LastIndex`) are
  embedded after their library sources.
* The collaborators with effects (file system, resolver, dialer, SMTP server) are a
  `World` of answers; `sendToKindle` returns the calls it made, in order, and the way
  it ended.
-/

namespace SendToKindle

/-! ## Bytes -/

/-- The bytes of an ASCII string literal. -/
def bytesOf (s : String) : List Nat := s.toList.map Char.toNat

/-- Every element of the list is a byte. -/
def IsBytes (b : List Nat) : Prop := ∀ x ∈ b, x < 256

/-! ## `encoding/base64`, `StdEncoding` -/

/-- The alphabet `encodeStd` of `encoding/base64`. -/
def encodeStd : List Nat :=
  bytesOf "ABCDEFGHIJKLMNOPQRSTUVWXYZabcdefghijklmnopqrstuvwxyz0123456789+/"

/-- The padding character `StdPadding`, `'='`. -/
def padChar : Nat := 61

/-- The lookup `enc.encode[v]`. -/
def encodeByte (v : Nat) : Nat := encodeStd.getD v 0

/-- `base64.StdEncoding.EncodeToString`: three source bytes become four letters of
the alphabet; a remainder of one or two bytes becomes two or three letters padded
with `'='` to four. -/
def encodeToString : List Nat → List Nat
  | a :: b :: c :: rest =>
    let val := a <<< 16 ||| b <<< 8 ||| c
    encodeByte (val >>> 18 &&& 0x3F) :: encodeByte (val >>> 12 &&& 0x3F) ::
      encodeByte (val >>> 6 &&& 0x3F) :: encodeByte (val &&& 0x3F) :: encodeToString rest
  | [a, b] =>
    let val := a <<< 16 ||| b <<< 8
    [encodeByte (val >>> 18 &&& 0x3F), encodeByte (val >>> 12 &&& 0x3F),
      encodeByte (val >>> 6 &&& 0x3F), padChar]
  | [a] =>
    let val := a <<< 16
    [encodeByte (val >>> 18 &&& 0x3F), encodeByte (val >>> 12 &&& 0x3F), padChar, padChar]
  | [] => []

/-- The table `enc.decodeMap`: the position of a letter in the alphabet, `none`
where the table holds `0xff`. -/
def decodeMap (c : Nat) : Option Nat :=
  let i := encodeStd.indexOf c
  if i < 64 then some i else none

/-- The loops `for si < len(src) && (src[si] == '\n' || src[si] == '\r') { si++ }`
of `decodeQuantum`. -/
def skipNewlines : List Nat → List Nat
  | [] => []
  | c :: cs => if c = 10 ∨ c = 13 then skipNewlines cs else c :: cs

/-- What one call of `decodeQuantum` found: the six-bit values read (`dbuf[0..dlen)`),
the input left, and whether input was left after the padding (`err`, trailing
garbage). -/
structure Quantum where
  dbuf : List Nat
  rest : List Nat
  trailing : Bool
deriving DecidableEq, Repr

/-- The reading loop of `decodeQuantum`: `dbuf` holds the `j = dbuf.length` values
read so far. `none` is a `CorruptInputError` returned from inside the loop. -/
def readQuantum : List Nat → List Nat → Option Quantum
  | dbuf, [] =>
    -- `len(src) == si`: fine at `j == 0`, corrupt otherwise (the encoding is padded)
    if dbuf = [] then some ⟨[], [], false⟩ else none
  | dbuf, c :: src =>
    match decodeMap c with
    | some out =>
      if dbuf.length = 3 then some ⟨dbuf ++ [out], src, false⟩
      else readQuantum (dbuf ++ [out]) src
    | none =>
      if c = 10 ∨ c = 13 then readQuantum dbuf src
      else if c ≠ padChar then none
      else
        match dbuf.length with
        | 0 => none
        | 1 => none
        | 2 =>
          match skipNewlines src with
          | [] => none
          | d :: src2 =>
            if d ≠ padChar then none
            else some ⟨dbuf, skipNewlines src2, decide (skipNewlines src2 ≠ [])⟩
        | _ => some ⟨dbuf, skipNewlines src, decide (skipNewlines src ≠ [])⟩

/-- The end of `decodeQuantum`: the `dlen` six-bit values are packed into `val` and
the first `dlen - 1` of its three bytes are the output. -/
def quantumBytes (dbuf : List Nat) : List Nat :=
  let val := dbuf.getD 0 0 <<< 18 ||| dbuf.getD 1 0 <<< 12 ||| dbuf.getD 2 0 <<< 6 |||
    dbuf.getD 3 0
  [val >>> 16 % 256, val >>> 8 % 256, val >>> 0 % 256].take (dbuf.length - 1)

/-- The loop `for si < len(src)` of `Decode`, one `decodeQuantum` per round, bounded
by `fuel` rounds; `none` when an error is returned or the rounds run out. -/
def decodeLoop : Nat → List Nat → Option (List Nat)
  | _, [] => some []
  | 0, _ :: _ => none
  | fuel + 1, c :: cs =>
    match readQuantum [] (c :: cs) with
    | none => none
    | some q =>
      if q.trailing then none
      else (decodeLoop fuel q.rest).map (quantumBytes q.dbuf ++ ·)

/-- `base64.StdEncoding.DecodeString`: the decoded bytes when the error is nil. Every
round of the loop consumes input, so `len(s)` rounds are enough. -/
def decodeString (s : List Nat) : Option (List Nat) := decodeLoop s.length s


/-! ## `fmt.Sprintf`, `path.Base`, `strings.LastIndex` -/

/-- `fmt.Sprintf` on string operands, for the verbs the formats of `root.go` use: `%s`
is replaced by the next operand, or by `%!s(MISSING)` when the operands have run out,
and `%%` is a percent sign. Any other byte of the format is copied. -/
def sprintf : List Nat → List (List Nat) → List Nat
  | [], _ => []
  | [c], _ => [c]
  | c :: d :: fmt, args =>
    if c = 37 ∧ d = 115 then
      match args with
      | a :: rest => a ++ sprintf fmt rest
      | [] => bytesOf "%!s(MISSING)" ++ sprintf fmt []
    else if c = 37 ∧ d = 37 then 37 :: sprintf fmt args
    else c :: sprintf (d :: fmt) args

/-- The loop `for len(path) > 0 && path[len(path)-1] == '/'` of `path.Base`, on the
reversed path. -/
def dropSlashes : List Nat → List Nat
  | [] => []
  | c :: cs => if c = 47 then dropSlashes cs else c :: cs

/-- `strings.LastIndex(s, sep)`: the index of the last instance of `sep` in `s`, or
`-1`; `len(s)` for the empty `sep`. `i` is the index of the head of the list and
`acc` the last instance seen. -/
def lastIndexFrom (sep : List Nat) : List Nat → Nat → Int → Int
  | [], i, acc => if sep = [] then i else acc
  | c :: cs, i, acc => lastIndexFrom sep cs (i + 1) (if sep.isPrefixOf (c :: cs) then i else acc)

/-- `strings.LastIndex`. -/
def lastIndex (s sep : List Nat) : Int := lastIndexFrom sep s 0 (-1)

/-- `path.Base`: the last element of the path, trailing slashes removed first; `.` for
the empty path and `/` for a path of slashes only. -/
def pathBase (path : List Nat) : List Nat :=
  if path = [] then bytesOf "."
  else
    let p := (dropSlashes path.reverse).reverse
    let i := lastIndex p (bytesOf "/")
    let p := if i ≥ 0 then p.drop (i + 1).toNat else p
    if p = [] then bytesOf "/" else p

/-! ## The message -/

/-- The constant `msgFmt` (lines 68-86). -/
def msgFmt : List Nat := bytesOf (
  "MIME-Version: 1.0\r\n" ++
  "Message-ID: <CAMgUg7badnLexYVc475ejJzeK97vdok9dKw23pisL6uWgur-Qw@mail.gmail.com>\r\n" ++
  "Date: Wed, 22 Nov 2017 10:21:29 +0000\r\n" ++
  "Subject: For kindle\r\n" ++
  "From: Charles Haynes <haynes@edgeplay.org>\r\n" ++
  "To: %s\r\n" ++
  "Content-Type: multipart/mixed; boundary=\"f403043895ccc776c6055e8fae42\"\r\n" ++
  "\r\n" ++
  "--f403043895ccc776c6055e8fae42\r\n" ++
  "Content-Type: application/octet-stream; \r\n" ++
  "\tname=\"%s\"\r\n" ++
  "Content-Disposition: attachment; \r\n" ++
  "\tfilename=\"%s\"\r\n" ++
  "Content-Transfer-Encoding: base64\r\n" ++
  "X-Attachment-Id: 15fe33f078e2fcfdb251\r\n" ++
  "Content-ID: <15fe33f078e2fcfdb251>\r\n" ++
  "\r\n" ++
  "%s\r\n" ++
  "--f403043895ccc776c6055e8fae42--\r\n")

/-- The message `m` of lines 95-97 for the recipient `to` (here `toAddr`), the file
name `b` and the file contents `c`: `fmt.Sprintf(msgFmt, to, b, b, s)` with `s` the
base64 text of `c`. -/
def buildMessage (toAddr b c : List Nat) : List Nat :=
  sprintf msgFmt [toAddr, b, b, encodeToString c]

/-! ## The collaborators of the delivery -/

/-- A Go `error` value: the sentinel `io.ErrShortWrite`, or an error made by a
collaborator (file system, resolver, dialer, SMTP server), told apart by a code. -/
inductive GoError where
  | errShortWrite
  | other (code : Nat)
deriving DecidableEq, Repr

/-- A record `*net.MX`. -/
structure MX where
  host : List Nat
  pref : Nat
deriving DecidableEq, Repr

/-- What the collaborators answer to each call `sendToKindle` can make, the error of
a call being `none` for nil.

* `readFile f` is `ioutil.ReadFile(f)`;
* `lookupMX name` is `net.LookupMX(name)`;
* `dialTimeout network address seconds` is `net.DialTimeout`;
* `newClient host` is `smtp.NewClient(conn, host)`;
* `mail`, `rcpt`, `data`, `quit` are the methods of `*smtp.Client`;
* `write p` and `close` are `body.Write(p)` and `body.Close()`. -/
structure World where
  readFile : List Nat → List Nat × Option GoError
  lookupMX : List Nat → List MX × Option GoError
  dialTimeout : List Nat → List Nat → Nat → Option GoError
  newClient : List Nat → Option GoError
  mail : List Nat → Option GoError
  rcpt : List Nat → Option GoError
  data : Option GoError
  write : List Nat → Int × Option GoError
  close : Option GoError
  quit : Option GoError

/-- A call made by `sendToKindle` on a collaborator; `connClose` is `conn.Close()`. -/
inductive Call where
  | readFile (f : List Nat)
  | lookupMX (name : List Nat)
  | dialTimeout (network address : List Nat) (seconds : Nat)
  | newClient (host : List Nat)
  | mail (sender : List Nat)
  | rcpt (recipient : List Nat)
  | data
  | write (p : List Nat)
  | close
  | quit
  | connClose
deriving DecidableEq, Repr

/-- What `log.Fatal` or `log.Fatalf` printed before `os.Exit(1)`. -/
inductive Logged where
  /-- The text of `log.Fatalf("reading %s: %s", f, err)`, by its operands. -/
  | reading (f : List Nat) (err : GoError)
  /-- A formatted text. -/
  | text (msg : List Nat)
  /-- The operand of `log.Fatal(err)`. -/
  | error (err : GoError)
deriving DecidableEq, Repr

/-- How a run of `sendToKindle` ends: it returns, or `log.Fatal` prints and calls
`os.Exit(1)`, or the indexing `mxs[0]` panics. -/
inductive Ending where
  | returned
  | fatal (logged : Logged)
  | indexOutOfRange
deriving DecidableEq, Repr

/-- Whether a call reaches the network: every call but the reading of the file. -/
def Call.isNetwork : Call → Bool
  | .readFile _ => false
  | _ => true

/-- Lines 112-143, the part of `sendToKindle` that runs after `defer`: the calls made
and the ending. The variable `err` is the one of the source: the result of
`client.Mail` is not assigned to it, so the test of line 117 reads the error of
`smtp.NewClient` once more. -/
def smtpSession (w : World) (toAddr m : List Nat) : List Call × Ending :=
  let host := bytesOf "ceh.bz"
  let sender := bytesOf "ceh@ceh.bz"
  let err := w.newClient host
  if let some e := err then ([.newClient host], .fatal (.error e)) else
  let _ := w.mail sender
  if let some e := err then ([.newClient host, .mail sender], .fatal (.error e)) else
  let err := w.rcpt toAddr
  if let some e := err then
    ([.newClient host, .mail sender, .rcpt toAddr], .fatal (.error e)) else
  let err := w.data
  if let some e := err then
    ([.newClient host, .mail sender, .rcpt toAddr, .data], .fatal (.error e)) else
  let (n, err) := w.write m
  let err := if err = none ∧ n < (m.length : Int) then some GoError.errShortWrite else err
  if let some e := err then
    ([.newClient host, .mail sender, .rcpt toAddr, .data, .write m], .fatal (.error e)) else
  let err := w.close
  if let some e := err then
    ([.newClient host, .mail sender, .rcpt toAddr, .data, .write m, .close],
      .fatal (.error e)) else
  let err := w.quit
  if let some e := err then
    ([.newClient host, .mail sender, .rcpt toAddr, .data, .write m, .close, .quit],
      .fatal (.error e)) else
  ([.newClient host, .mail sender, .rcpt toAddr, .data, .write m, .close, .quit], .returned)

/-- The deferred `conn.Close()` of line 111: it runs when the function returns; it does
not run when `log.Fatal` ends the process, since `os.Exit` runs no deferred
function. -/
def runDeferred (r : List Call × Ending) : List Call × Ending :=
  match r.2 with
  | .fatal _ => r
  | _ => (r.1 ++ [.connClose], r.2)

/-- The function `sendToKindle` (lines 88-144) with `to = args[0]` (here `toAddr`) and
`f = args[1]`: the calls it makes, in order, and how it ends. -/
def sendToKindle (w : World) (toAddr f : List Nat) : List Call × Ending :=
  let (c, err) := w.readFile f
  if let some e := err then ([.readFile f], .fatal (.reading f e)) else
  let s := encodeToString c
  let b := pathBase f
  let m := sprintf msgFmt [toAddr, b, b, s]
  let atIdx := lastIndex toAddr (bytesOf "@")
  if atIdx < 0 then
    ([.readFile f], .fatal (.text (sprintf (bytesOf "address must contain @: %s") [toAddr])))
  else
  let name := toAddr.drop (atIdx + 1).toNat
  let (mxs, err) := w.lookupMX name
  if let some e := err then ([.readFile f, .lookupMX name], .fatal (.error e)) else
  match mxs with
  | [] => ([.readFile f, .lookupMX name], .indexOutOfRange)
  | mx0 :: _ =>
    let mx := sprintf (bytesOf "%s:25") [mx0.host]
    let err := w.dialTimeout (bytesOf "tcp4") mx 10
    if let some e := err then
      ([.readFile f, .lookupMX name, .dialTimeout (bytesOf "tcp4") mx 10], .fatal (.error e))
    else
      let r := runDeferred (smtpSession w toAddr m)
      (.readFile f :: .lookupMX name :: .dialTimeout (bytesOf "tcp4") mx 10 :: r.1, r.2)

/-- The contract of `net.LookupMX` on its results: it returns no empty list of records
with a nil error. The resolver answers with the error `no such host` when the reply
holds no MX record, and `LookupMX` returns an error next to the records it keeps when
it drops malformed ones. -/
def AnswersAsLookupMX (w : World) : Prop :=
  ∀ name, (w.lookupMX name).1 = [] → (w.lookupMX name).2 ≠ none

/-! ## Observations on a message -/

/-- The boundary-open marker: the delimiter line with its CRLF. -/
def boundaryOpen : List Nat := bytesOf "--f403043895ccc776c6055e8fae42\r\n"

/-- The boundary-close marker. -/
def boundaryClose : List Nat := bytesOf "--f403043895ccc776c6055e8fae42--"

/-- The number of occurrences of `pat` in `s`: the positions of `s` at which `pat`
starts, overlapping ones included. -/
def countOcc (pat : List Nat) : List Nat → Nat
  | [] => if pat = [] then 1 else 0
  | c :: cs => (if pat.isPrefixOf (c :: cs) then 1 else 0) + countOcc pat cs

/-- CRLF line terminators throughout: every line feed (10) is immediately preceded by a
carriage return (13) and every carriage return is immediately followed by a line
feed. -/
def CRLFThroughout (m : List Nat) : Prop :=
  (∀ i, m[i]? = some 10 → ∃ j, i = j + 1 ∧ m[j]? = some 13) ∧
  (∀ i, m[i]? = some 13 → m[i + 1]? = some 10)

/-- A scan for `CRLFThroughout`; `pending` says that the byte before the list is a
carriage return, which the head of the list has to follow with a line feed. -/
def scanCRLF : Bool → List Nat → Bool
  | pending, [] => !pending
  | true, c :: cs => c == 10 && scanCRLF false cs
  | false, c :: cs =>
    if c = 10 then false else if c = 13 then scanCRLF true cs else scanCRLF false cs

/-! ## Header lines of a message -/

/-- The lines of a message: the stretches between its CRLF sequences. `cur` is the line
being read, in reverse. -/
def crlfLinesFrom : List Nat → List Nat → List (List Nat)
  | cur, [] => [cur.reverse]
  | cur, [c] => [(c :: cur).reverse]
  | cur, c :: d :: rest =>
    if c = 13 ∧ d = 10 then cur.reverse :: crlfLinesFrom [] rest
    else crlfLinesFrom (c :: cur) (d :: rest)

/-- The lines of a message. -/
def crlfLines (m : List Nat) : List (List Nat) := crlfLinesFrom [] m

/-- The value of the header `key`, the name with its colon and space as in `To: `: what
follows `key` on the first line of the message that starts with it. -/
def headerValue (key m : List Nat) : Option (List Nat) :=
  ((crlfLines m).find? (fun l => key.isPrefixOf l)).map (fun l => l.drop key.length)

/-- The value of the quoted parameter `key`, the name with `=` and the opening quote on
a line of its own: what follows `key` up to the next double quote on the first line
that starts with it. -/
def quotedParam (key m : List Nat) : Option (List Nat) :=
  (headerValue key m).map (fun v => v.takeWhile (fun c => c ≠ 34))

/-- Lines put one after the other, each with its CRLF. -/
def joinLines : List (List Nat) → List Nat
  | [] => []
  | l :: ls => l ++ 13 :: 10 :: joinLines ls

/-- The lines of `msgFmt` before the line `To: `. -/
def headLines : List (List Nat) :=
  [bytesOf "MIME-Version: 1.0",
   bytesOf "Message-ID: <CAMgUg7badnLexYVc475ejJzeK97vdok9dKw23pisL6uWgur-Qw@mail.gmail.com>",
   bytesOf "Date: Wed, 22 Nov 2017 10:21:29 +0000",
   bytesOf "Subject: For kindle",
   bytesOf "From: Charles Haynes <haynes@edgeplay.org>"]

/-- The lines of `msgFmt` between the line `To: ` and the line of `name=`. -/
def partLines : List (List Nat) :=
  [bytesOf "Content-Type: multipart/mixed; boundary=\"f403043895ccc776c6055e8fae42\"",
   [],
   bytesOf "--f403043895ccc776c6055e8fae42",
   bytesOf "Content-Type: application/octet-stream; "]

/-! ## Worlds of the examples -/

/-- The file holds `Man`, the domain has one exchanger `mx.example.com`, and every call
succeeds, the write taking every byte. -/
def okWorld : World where
  readFile := fun _ => (bytesOf "Man", none)
  lookupMX := fun _ => ([⟨bytesOf "mx.example.com", 10⟩], none)
  dialTimeout := fun _ _ _ => none
  newClient := fun _ => none
  mail := fun _ => none
  rcpt := fun _ => none
  data := none
  write := fun p => (p.length, none)
  close := none
  quit := none

/-- As `okWorld`, but the write of the body takes no byte and reports no error. -/
def shortWriteWorld : World := { okWorld with write := fun _ => (0, none) }

/-- As `okWorld`, but the write of the body fails with a transport error. -/
def brokenPipeWorld : World := { okWorld with write := fun _ => (0, some (.other 32)) }

/-- As `okWorld`, but the server rejects `RCPT TO` with a 550 reply. -/
def rcptRejectedWorld : World := { okWorld with rcpt := fun _ => some (.other 550) }

/-- As `okWorld`, but the server rejects `MAIL FROM` with a 550 reply. -/
def mailRejectedWorld : World := { okWorld with mail := fun _ => some (.other 550) }

/-- As `okWorld`, but the lookup returns no record and no error. -/
def emptyLookupWorld : World := { okWorld with lookupMX := fun _ => ([], none) }

/-- As `okWorld`, but the domain has no record: the lookup returns the error
`no such host` and no record. -/
def noSuchHostWorld : World := { okWorld with lookupMX := fun _ => ([], some (.other 3)) }

/-! ## The base64 round trip -/

theorem decodeMap_encodeByte : ∀ v, v < 64 → decodeMap (encodeByte v) = some v := by
  decide

theorem and_0x3F (x : Nat) : x &&& 0x3F = x % 64 :=
  Nat.and_pow_two_sub_one_eq_mod x 6

theorem pack2 (a b : Nat) (hb : b < 256) : a <<< 16 ||| b <<< 8 = a * 65536 + b * 256 := by
  have := Nat.mul_add_lt_is_or (i := 16) (b := b <<< 8) (by rw [Nat.shiftLeft_eq]; omega) a
  rw [Nat.shiftLeft_eq a 16, Nat.mul_comm a, ← this, Nat.shiftLeft_eq]

theorem pack3 (a b c : Nat) (hb : b < 256) (hc : c < 256) :
    a <<< 16 ||| b <<< 8 ||| c = a * 65536 + b * 256 + c := by
  have h2 := Nat.mul_add_lt_is_or (i := 8) (b := c) (by omega) (a * 256 + b)
  rw [pack2 a b hb]
  have e : a * 65536 + b * 256 = 2 ^ 8 * (a * 256 + b) := by omega
  rw [e, ← h2]

theorem pack4 (d0 d1 d2 d3 : Nat) (h1 : d1 < 64) (h2 : d2 < 64) (h3 : d3 < 64) :
    d0 <<< 18 ||| d1 <<< 12 ||| d2 <<< 6 ||| d3 = d0 * 262144 + d1 * 4096 + d2 * 64 + d3 := by
  have a1 : d0 <<< 18 ||| d1 <<< 12 = d0 * 262144 + d1 * 4096 := by
    have := Nat.mul_add_lt_is_or (i := 18) (b := d1 <<< 12) (by rw [Nat.shiftLeft_eq]; omega) d0
    rw [Nat.shiftLeft_eq d0 18, Nat.mul_comm d0, ← this, Nat.shiftLeft_eq]
  have a2 : d0 * 262144 + d1 * 4096 ||| d2 <<< 6 = d0 * 262144 + d1 * 4096 + d2 * 64 := by
    have := Nat.mul_add_lt_is_or (i := 12) (b := d2 <<< 6) (by rw [Nat.shiftLeft_eq]; omega)
      (d0 * 64 + d1)
    have e : d0 * 262144 + d1 * 4096 = 2 ^ 12 * (d0 * 64 + d1) := by omega
    rw [e, ← this, Nat.shiftLeft_eq]
  have a3 := Nat.mul_add_lt_is_or (i := 6) (b := d3) (by omega) (d0 * 4096 + d1 * 64 + d2)
  have e : d0 * 262144 + d1 * 4096 + d2 * 64 = 2 ^ 6 * (d0 * 4096 + d1 * 64 + d2) := by omega
  rw [a1, a2, e, ← a3]


theorem readQuantum_four (v0 v1 v2 v3 : Nat) (h0 : v0 < 64) (h1 : v1 < 64) (h2 : v2 < 64)
    (h3 : v3 < 64) (rest : List Nat) :
    readQuantum [] (encodeByte v0 :: encodeByte v1 :: encodeByte v2 :: encodeByte v3 :: rest)
      = some ⟨[v0, v1, v2, v3], rest, false⟩ := by
  simp [readQuantum, decodeMap_encodeByte, h0, h1, h2, h3]

theorem readQuantum_three (v0 v1 v2 : Nat) (h0 : v0 < 64) (h1 : v1 < 64) (h2 : v2 < 64) :
    readQuantum [] [encodeByte v0, encodeByte v1, encodeByte v2, padChar]
      = some ⟨[v0, v1, v2], [], false⟩ := by
  have hp : decodeMap 61 = none := by decide
  simp [readQuantum, decodeMap_encodeByte, h0, h1, h2, hp, skipNewlines, padChar]

theorem readQuantum_two (v0 v1 : Nat) (h0 : v0 < 64) (h1 : v1 < 64) :
    readQuantum [] [encodeByte v0, encodeByte v1, padChar, padChar]
      = some ⟨[v0, v1], [], false⟩ := by
  have hp : decodeMap 61 = none := by decide
  simp [readQuantum, decodeMap_encodeByte, h0, h1, hp, skipNewlines, padChar]


theorem quantumBytes_four (a b c : Nat) (ha : a < 256) (hb : b < 256) (hc : c < 256) :
    quantumBytes [(a <<< 16 ||| b <<< 8 ||| c) >>> 18 &&& 0x3F,
      (a <<< 16 ||| b <<< 8 ||| c) >>> 12 &&& 0x3F,
      (a <<< 16 ||| b <<< 8 ||| c) >>> 6 &&& 0x3F,
      (a <<< 16 ||| b <<< 8 ||| c) &&& 0x3F] = [a, b, c] := by
  simp only [quantumBytes, and_0x3F, List.getD_cons_zero, List.getD_cons_succ, List.length_cons,
    List.length_nil]
  rw [pack4 _ _ _ _ (Nat.mod_lt _ (by norm_num)) (Nat.mod_lt _ (by norm_num))
    (Nat.mod_lt _ (by norm_num))]
  simp only [pack3 a b c hb hc, Nat.shiftRight_eq_div_pow]
  norm_num
  refine ⟨?_, ?_, ?_⟩ <;> omega

theorem quantumBytes_three (a b : Nat) (ha : a < 256) (hb : b < 256) :
    quantumBytes [(a <<< 16 ||| b <<< 8) >>> 18 &&& 0x3F,
      (a <<< 16 ||| b <<< 8) >>> 12 &&& 0x3F,
      (a <<< 16 ||| b <<< 8) >>> 6 &&& 0x3F] = [a, b] := by
  simp only [quantumBytes, and_0x3F, List.getD_cons_zero, List.getD_cons_succ, List.length_cons,
    List.length_nil, List.getD_nil]
  rw [pack4 _ _ _ _ (Nat.mod_lt _ (by norm_num)) (Nat.mod_lt _ (by norm_num))
    (by norm_num)]
  simp only [pack2 a b hb, Nat.shiftRight_eq_div_pow]
  norm_num
  refine ⟨?_, ?_⟩ <;> omega

theorem quantumBytes_two (a : Nat) (ha : a < 256) :
    quantumBytes [(a <<< 16) >>> 18 &&& 0x3F, (a <<< 16) >>> 12 &&& 0x3F] = [a] := by
  simp only [quantumBytes, and_0x3F, List.getD_cons_zero, List.getD_cons_succ, List.length_cons,
    List.length_nil, List.getD_nil]
  rw [pack4 _ _ _ _ (Nat.mod_lt _ (by norm_num)) (by norm_num) (by norm_num)]
  simp only [Nat.shiftLeft_eq, Nat.shiftRight_eq_div_pow]
  norm_num
  omega


theorem sextet_lt (x : Nat) : x &&& 0x3F < 64 := by
  rw [and_0x3F]; exact Nat.mod_lt _ (by norm_num)

theorem length_le_encodeToString : ∀ b : List Nat, b.length ≤ (encodeToString b).length
  | [] => by simp [encodeToString]
  | [_] => by simp [encodeToString]
  | [_, _] => by simp [encodeToString]
  | _ :: _ :: _ :: rest => by
    have := length_le_encodeToString rest
    simp only [encodeToString, List.length_cons]
    omega

theorem decodeLoop_encodeToString :
    ∀ (fuel : Nat) (b : List Nat), IsBytes b → b.length ≤ 3 * fuel →
      decodeLoop fuel (encodeToString b) = some b := by
  intro fuel
  induction fuel with
  | zero =>
    intro b _ hlen
    have : b = [] := List.length_eq_zero.mp (by omega)
    subst this
    rfl
  | succ fuel ih =>
    intro b hb hlen
    match b, hb, hlen with
    | [], _, _ => rfl
    | [a], hb, _ =>
      have ha : a < 256 := hb a (by simp)
      simp only [encodeToString, decodeLoop]
      rw [readQuantum_two _ _ (sextet_lt _) (sextet_lt _)]
      simp [decodeLoop, quantumBytes_two a ha]
    | [a, b], hb, _ =>
      have ha : a < 256 := hb a (by simp)
      have hb2 : b < 256 := hb b (by simp)
      simp only [encodeToString, decodeLoop]
      rw [readQuantum_three _ _ _ (sextet_lt _) (sextet_lt _) (sextet_lt _)]
      simp [decodeLoop, quantumBytes_three a b ha hb2]
    | a :: b :: c :: rest, hb, hlen =>
      have ha : a < 256 := hb a (by simp)
      have hb2 : b < 256 := hb b (by simp)
      have hc : c < 256 := hb c (by simp)
      have hrest : IsBytes rest := fun x hx => hb x (by simp [hx])
      have hl : rest.length ≤ 3 * fuel := by simp only [List.length_cons] at hlen; omega
      simp only [encodeToString, decodeLoop]
      rw [readQuantum_four _ _ _ _ (sextet_lt _) (sextet_lt _) (sextet_lt _) (sextet_lt _)]
      simp [ih rest hrest hl, quantumBytes_four a b c ha hb2 hc]

theorem decodeString_encodeToString (b : List Nat) (hb : IsBytes b) :
    decodeString (encodeToString b) = some b :=
  decodeLoop_encodeToString _ b hb (by have := length_le_encodeToString b; omega)


/-- The test vectors of RFC 4648, section 10. -/
theorem encodeToString_vectors :
    encodeToString (bytesOf "") = bytesOf "" ∧
    encodeToString (bytesOf "f") = bytesOf "Zg==" ∧
    encodeToString (bytesOf "fo") = bytesOf "Zm8=" ∧
    encodeToString (bytesOf "foo") = bytesOf "Zm9v" ∧
    encodeToString (bytesOf "foob") = bytesOf "Zm9vYg==" ∧
    encodeToString (bytesOf "fooba") = bytesOf "Zm9vYmE=" ∧
    encodeToString (bytesOf "foobar") = bytesOf "Zm9vYmFy" := by
  decide

/-- The decoder on padded text, on text with line ends, and on corrupt text. -/
theorem decodeString_vectors :
    decodeString (bytesOf "Zm9vYg==") = some (bytesOf "foob") ∧
    decodeString (bytesOf "Zm9v\r\nYmE=\r\n") = some (bytesOf "fooba") ∧
    decodeString (bytesOf "Zm9vYg=") = none ∧
    decodeString (bytesOf "Zm9vYg==Zg==") = none ∧
    decodeString (bytesOf "Zm9-") = none := by
  decide

/-- The examples of the documentation of `path.Base`. -/
theorem pathBase_vectors :
    pathBase (bytesOf "/a/b") = bytesOf "b" ∧
    pathBase (bytesOf "/") = bytesOf "/" ∧
    pathBase (bytesOf "") = bytesOf "." ∧
    pathBase (bytesOf "books/book.mobi") = bytesOf "book.mobi" ∧
    pathBase (bytesOf "book.mobi//") = bytesOf "book.mobi" := by
  decide

/-- Examples of `strings.LastIndex`. -/
theorem lastIndex_vectors :
    lastIndex (bytesOf "go gopher") (bytesOf "go") = 3 ∧
    lastIndex (bytesOf "go gopher") (bytesOf "rodent") = -1 ∧
    lastIndex (bytesOf "a@b@c") (bytesOf "@") = 3 ∧
    lastIndex (bytesOf "abc") (bytesOf "") = 3 := by
  decide

/-! ## The shape of the message -/

theorem sprintf_nil_args : ∀ fmt : List Nat, 37 ∉ fmt → sprintf fmt [] = fmt
  | [], _ => rfl
  | [_], _ => rfl
  | c :: d :: fmt, h => by
    have hc : c ≠ 37 := fun e => h (by simp [e])
    have ih := sprintf_nil_args (d :: fmt) (fun hm => h (List.mem_cons_of_mem _ hm))
    simp [sprintf, hc, ih]

theorem sprintf_verb (pre fmt a : List Nat) (args : List (List Nat)) (h : 37 ∉ pre) :
    sprintf (pre ++ 37 :: 115 :: fmt) (a :: args) = pre ++ (a ++ sprintf fmt args) := by
  induction pre with
  | nil => simp [sprintf]
  | cons c pre ih =>
    have hc : c ≠ 37 := fun e => h (by simp [e])
    have ih := ih (fun hm => h (List.mem_cons_of_mem _ hm))
    cases pre with
    | nil => simp [sprintf, hc]
    | cons d pre =>
      rw [List.cons_append, List.cons_append, sprintf]
      simp only [hc, false_and, if_false]
      rw [← List.cons_append, ih]
      rfl

set_option maxRecDepth 100000 in
theorem msgFmt_eq :
    msgFmt =
      bytesOf ("MIME-Version: 1.0\r\n" ++
        "Message-ID: <CAMgUg7badnLexYVc475ejJzeK97vdok9dKw23pisL6uWgur-Qw@mail.gmail.com>\r\n" ++
        "Date: Wed, 22 Nov 2017 10:21:29 +0000\r\n" ++
        "Subject: For kindle\r\n" ++
        "From: Charles Haynes <haynes@edgeplay.org>\r\n" ++
        "To: ") ++ 37 :: 115 ::
      (bytesOf ("\r\n" ++
        "Content-Type: multipart/mixed; boundary=\"f403043895ccc776c6055e8fae42\"\r\n" ++
        "\r\n" ++
        "--f403043895ccc776c6055e8fae42\r\n" ++
        "Content-Type: application/octet-stream; \r\n" ++
        "\tname=\"") ++ 37 :: 115 ::
      (bytesOf ("\"\r\n" ++
        "Content-Disposition: attachment; \r\n" ++
        "\tfilename=\"") ++ 37 :: 115 ::
      (bytesOf ("\"\r\n" ++
        "Content-Transfer-Encoding: base64\r\n" ++
        "X-Attachment-Id: 15fe33f078e2fcfdb251\r\n" ++
        "Content-ID: <15fe33f078e2fcfdb251>\r\n" ++
        "\r\n") ++ 37 :: 115 ::
      bytesOf ("\r\n" ++
        "--f403043895ccc776c6055e8fae42--\r\n")))) := by
  decide

/-- The message is the template with the recipient, the file name twice and the base64
text in the places of the four verbs. -/
theorem buildMessage_eq (r n b : List Nat) :
    buildMessage r n b =
      bytesOf ("MIME-Version: 1.0\r\n" ++
        "Message-ID: <CAMgUg7badnLexYVc475ejJzeK97vdok9dKw23pisL6uWgur-Qw@mail.gmail.com>\r\n" ++
        "Date: Wed, 22 Nov 2017 10:21:29 +0000\r\n" ++
        "Subject: For kindle\r\n" ++
        "From: Charles Haynes <haynes@edgeplay.org>\r\n" ++
        "To: ") ++ (r ++
      (bytesOf ("\r\n" ++
        "Content-Type: multipart/mixed; boundary=\"f403043895ccc776c6055e8fae42\"\r\n" ++
        "\r\n" ++
        "--f403043895ccc776c6055e8fae42\r\n" ++
        "Content-Type: application/octet-stream; \r\n" ++
        "\tname=\"") ++ (n ++
      (bytesOf ("\"\r\n" ++
        "Content-Disposition: attachment; \r\n" ++
        "\tfilename=\"") ++ (n ++
      (bytesOf ("\"\r\n" ++
        "Content-Transfer-Encoding: base64\r\n" ++
        "X-Attachment-Id: 15fe33f078e2fcfdb251\r\n" ++
        "Content-ID: <15fe33f078e2fcfdb251>\r\n" ++
        "\r\n") ++ (encodeToString b ++
      bytesOf ("\r\n" ++
        "--f403043895ccc776c6055e8fae42--\r\n")))))))) := by
  unfold buildMessage
  rw [msgFmt_eq, sprintf_verb _ _ _ _ (by decide), sprintf_verb _ _ _ _ (by decide),
    sprintf_verb _ _ _ _ (by decide), sprintf_verb _ _ _ _ (by decide),
    sprintf_nil_args _ (by decide)]

/-! ## Occurrences of a pattern -/

theorem prefix_append_sep {pat z y : List Nat} {c : Nat} (hc : c ∉ pat) :
    pat <+: z ++ c :: y ↔ pat <+: z := by
  constructor
  · intro h
    rcases List.prefix_or_prefix_of_prefix h (List.prefix_append z (c :: y)) with h1 | h1
    · exact h1
    · obtain ⟨t, rfl⟩ := h1
      cases t with
      | nil => simp
      | cons d t =>
        have h2 : d :: t <+: c :: y := (List.prefix_append_right_inj z).mp h
        have hd : d = c := (List.cons_prefix_cons.mp h2).1
        exact absurd (by simp [hd]) hc
  · intro h
    exact h.trans (List.prefix_append z (c :: y))

theorem countOcc_cons (pat : List Nat) (c : Nat) (cs : List Nat) :
    countOcc pat (c :: cs) = (if pat <+: c :: cs then 1 else 0) + countOcc pat cs := by
  rw [countOcc]
  simp only [List.isPrefixOf_iff_prefix]

/-- A byte that is not in the pattern separates the occurrences on its two sides. -/
theorem countOcc_sep (pat x y : List Nat) (c : Nat) (hc : c ∉ pat) :
    countOcc pat (x ++ c :: y) = countOcc pat x + countOcc pat y := by
  induction x with
  | nil =>
    have h := prefix_append_sep (z := []) (y := y) hc
    simp only [List.nil_append, List.prefix_nil] at h
    by_cases hp : pat = []
    · simp [countOcc, hp]
    · simp [countOcc, hp, h]
  | cons a x ih =>
    have h := prefix_append_sep (z := a :: x) (y := y) hc
    simp only [List.cons_append] at h
    rw [List.cons_append, countOcc_cons, countOcc_cons, ih]
    simp only [h]
    omega

/-- No occurrence starts in a stretch without the first byte of the pattern. -/
theorem countOcc_skip (p : Nat) (ps x y : List Nat) (hp : p ∉ x) :
    countOcc (p :: ps) (x ++ y) = countOcc (p :: ps) y := by
  induction x with
  | nil => rfl
  | cons a x ih =>
    have ha : a ≠ p := fun e => hp (by simp [e])
    have := ih (fun hm => hp (List.mem_cons_of_mem _ hm))
    have hne : ¬ p :: ps <+: a :: (x ++ y) := fun h => ha (List.cons_prefix_cons.mp h).1.symm
    rw [List.cons_append, countOcc_cons, this, if_neg hne, Nat.zero_add]

theorem encodeByte_mem (v : Nat) (h : v < 64) : encodeByte v ∈ encodeStd := by
  revert v
  decide

theorem mem_encodeToString : ∀ (b : List Nat) (x : Nat),
    x ∈ encodeToString b → x ∈ encodeStd ∨ x = padChar
  | [], x, h => by simp [encodeToString] at h
  | [_], x, h => by
    simp only [encodeToString, List.mem_cons, List.mem_singleton, List.mem_nil_iff,
      or_false] at h
    rcases h with h | h | h | h
    · exact Or.inl (h ▸ encodeByte_mem _ (sextet_lt _))
    · exact Or.inl (h ▸ encodeByte_mem _ (sextet_lt _))
    · exact Or.inr h
    · exact Or.inr h
  | [_, _], x, h => by
    simp only [encodeToString, List.mem_cons, List.mem_singleton, List.mem_nil_iff,
      or_false] at h
    rcases h with h | h | h | h
    · exact Or.inl (h ▸ encodeByte_mem _ (sextet_lt _))
    · exact Or.inl (h ▸ encodeByte_mem _ (sextet_lt _))
    · exact Or.inl (h ▸ encodeByte_mem _ (sextet_lt _))
    · exact Or.inr h
  | _ :: _ :: _ :: rest, x, h => by
    simp only [encodeToString, List.mem_cons] at h
    rcases h with h | h | h | h | h
    · exact Or.inl (h ▸ encodeByte_mem _ (sextet_lt _))
    · exact Or.inl (h ▸ encodeByte_mem _ (sextet_lt _))
    · exact Or.inl (h ▸ encodeByte_mem _ (sextet_lt _))
    · exact Or.inl (h ▸ encodeByte_mem _ (sextet_lt _))
    · exact mem_encodeToString rest x h

/-- The base64 text holds no hyphen, carriage return or line feed. -/
theorem encodeToString_clean (b : List Nat) :
    45 ∉ encodeToString b ∧ 13 ∉ encodeToString b ∧ 10 ∉ encodeToString b := by
  have key : ∀ x, x ∈ encodeStd ∨ x = padChar → x ≠ 45 ∧ x ≠ 13 ∧ x ≠ 10 := by
    intro x hx
    rcases hx with hx | hx
    · revert x; decide
    · subst hx; decide
  refine ⟨fun h => ?_, fun h => ?_, fun h => ?_⟩
  · exact (key _ (mem_encodeToString b _ h)).1 rfl
  · exact (key _ (mem_encodeToString b _ h)).2.1 rfl
  · exact (key _ (mem_encodeToString b _ h)).2.2 rfl

set_option maxRecDepth 100000 in
/-- The message with the bytes that separate the operands from the template written
out: the space before the recipient, the `C` after its line end, the quotes around
the file name, the `>` before the blank line. -/
theorem buildMessage_separated (r n b : List Nat) :
    buildMessage r n b =
      bytesOf ("MIME-Version: 1.0\r\n" ++
        "Message-ID: <CAMgUg7badnLexYVc475ejJzeK97vdok9dKw23pisL6uWgur-Qw@mail.gmail.com>\r\n" ++
        "Date: Wed, 22 Nov 2017 10:21:29 +0000\r\n" ++
        "Subject: For kindle\r\n" ++
        "From: Charles Haynes <haynes@edgeplay.org>\r\n" ++
        "To:") ++ 32 :: ((r ++ [13, 10]) ++ 67 ::
      (bytesOf ("ontent-Type: multipart/mixed; boundary=\"f403043895ccc776c6055e8fae42\"\r\n" ++
        "\r\n" ++
        "--f403043895ccc776c6055e8fae42\r\n" ++
        "Content-Type: application/octet-stream; \r\n" ++
        "\tname=") ++ 34 :: (n ++ 34 ::
      (bytesOf ("\r\n" ++
        "Content-Disposition: attachment; \r\n" ++
        "\tfilename=") ++ 34 :: (n ++ 34 ::
      (bytesOf ("\r\n" ++
        "Content-Transfer-Encoding: base64\r\n" ++
        "X-Attachment-Id: 15fe33f078e2fcfdb251\r\n" ++
        "Content-ID: <15fe33f078e2fcfdb251") ++ 62 :: (([13, 10, 13, 10] ++ encodeToString b) ++
      bytesOf ("\r\n" ++
        "--f403043895ccc776c6055e8fae42--\r\n")))))))) := by
  have hA : bytesOf ("MIME-Version: 1.0\r\n" ++
        "Message-ID: <CAMgUg7badnLexYVc475ejJzeK97vdok9dKw23pisL6uWgur-Qw@mail.gmail.com>\r\n" ++
        "Date: Wed, 22 Nov 2017 10:21:29 +0000\r\n" ++
        "Subject: For kindle\r\n" ++
        "From: Charles Haynes <haynes@edgeplay.org>\r\n" ++
        "To: ") = bytesOf ("MIME-Version: 1.0\r\n" ++
        "Message-ID: <CAMgUg7badnLexYVc475ejJzeK97vdok9dKw23pisL6uWgur-Qw@mail.gmail.com>\r\n" ++
        "Date: Wed, 22 Nov 2017 10:21:29 +0000\r\n" ++
        "Subject: For kindle\r\n" ++
        "From: Charles Haynes <haynes@edgeplay.org>\r\n" ++
        "To:") ++ [32] := by decide
  have hB : bytesOf ("\r\n" ++
        "Content-Type: multipart/mixed; boundary=\"f403043895ccc776c6055e8fae42\"\r\n" ++
        "\r\n" ++
        "--f403043895ccc776c6055e8fae42\r\n" ++
        "Content-Type: application/octet-stream; \r\n" ++
        "\tname=\"") = 13 :: 10 :: 67 ::
      (bytesOf ("ontent-Type: multipart/mixed; boundary=\"f403043895ccc776c6055e8fae42\"\r\n" ++
        "\r\n" ++
        "--f403043895ccc776c6055e8fae42\r\n" ++
        "Content-Type: application/octet-stream; \r\n" ++
        "\tname=") ++ [34]) := by decide
  have hC : bytesOf ("\"\r\n" ++
        "Content-Disposition: attachment; \r\n" ++
        "\tfilename=\"") = 34 :: (bytesOf ("\r\n" ++
        "Content-Disposition: attachment; \r\n" ++
        "\tfilename=") ++ [34]) := by decide
  have hD : bytesOf ("\"\r\n" ++
        "Content-Transfer-Encoding: base64\r\n" ++
        "X-Attachment-Id: 15fe33f078e2fcfdb251\r\n" ++
        "Content-ID: <15fe33f078e2fcfdb251>\r\n" ++
        "\r\n") = 34 :: (bytesOf ("\r\n" ++
        "Content-Transfer-Encoding: base64\r\n" ++
        "X-Attachment-Id: 15fe33f078e2fcfdb251\r\n" ++
        "Content-ID: <15fe33f078e2fcfdb251") ++ [62, 13, 10, 13, 10]) := by decide
  rw [buildMessage_eq, hA, hB, hC, hD]
  simp only [List.append_assoc, List.cons_append, List.nil_append]

/-- The occurrences of a pattern that starts with a hyphen and has no space, `C`,
quote or `>`: those of the pieces of the template and of the operands. -/
theorem countOcc_buildMessage (ps r n b : List Nat)
    (h32 : 32 ∉ 45 :: ps) (h67 : 67 ∉ 45 :: ps) (h34 : 34 ∉ 45 :: ps) (h62 : 62 ∉ 45 :: ps) :
    countOcc (45 :: ps) (buildMessage r n b) =
      countOcc (45 :: ps) (bytesOf ("MIME-Version: 1.0\r\n" ++
        "Message-ID: <CAMgUg7badnLexYVc475ejJzeK97vdok9dKw23pisL6uWgur-Qw@mail.gmail.com>\r\n" ++
        "Date: Wed, 22 Nov 2017 10:21:29 +0000\r\n" ++
        "Subject: For kindle\r\n" ++
        "From: Charles Haynes <haynes@edgeplay.org>\r\n" ++
        "To:")) + (countOcc (45 :: ps) (r ++ [13, 10]) +
      (countOcc (45 :: ps) (bytesOf (
        "ontent-Type: multipart/mixed; boundary=\"f403043895ccc776c6055e8fae42\"\r\n" ++
        "\r\n" ++
        "--f403043895ccc776c6055e8fae42\r\n" ++
        "Content-Type: application/octet-stream; \r\n" ++
        "\tname=")) + (countOcc (45 :: ps) n +
      (countOcc (45 :: ps) (bytesOf ("\r\n" ++
        "Content-Disposition: attachment; \r\n" ++
        "\tfilename=")) + (countOcc (45 :: ps) n +
      (countOcc (45 :: ps) (bytesOf ("\r\n" ++
        "Content-Transfer-Encoding: base64\r\n" ++
        "X-Attachment-Id: 15fe33f078e2fcfdb251\r\n" ++
        "Content-ID: <15fe33f078e2fcfdb251")) +
      countOcc (45 :: ps) (bytesOf ("\r\n" ++
        "--f403043895ccc776c6055e8fae42--\r\n")))))))) := by
  have hskip : 45 ∉ [13, 10, 13, 10] ++ encodeToString b := by
    intro h
    rcases List.mem_append.mp h with h | h
    · revert h; decide
    · exact (encodeToString_clean b).1 h
  rw [buildMessage_separated, countOcc_sep _ _ _ _ h32, countOcc_sep _ _ _ _ h67,
    countOcc_sep _ _ _ _ h34, countOcc_sep _ _ _ _ h34, countOcc_sep _ _ _ _ h34,
    countOcc_sep _ _ _ _ h34, countOcc_sep _ _ _ _ h62, countOcc_skip _ _ _ _ hskip]

set_option maxRecDepth 100000 in
/-- The boundary-open marker in the message: once in the template, and wherever the
recipient with its line end or the file name holds it. -/
theorem countOcc_boundaryOpen (r n b : List Nat) :
    countOcc boundaryOpen (buildMessage r n b) =
      1 + countOcc boundaryOpen (r ++ bytesOf "\r\n") + 2 * countOcc boundaryOpen n := by
  have h := countOcc_buildMessage (bytesOf "-f403043895ccc776c6055e8fae42\r\n") r n b
    (by decide) (by decide) (by decide) (by decide)
  have e : 45 :: bytesOf "-f403043895ccc776c6055e8fae42\r\n" = boundaryOpen := by decide
  have e2 : ([13, 10] : List Nat) = bytesOf "\r\n" := by decide
  rw [e, e2] at h
  rw [h]
  have c1 : countOcc boundaryOpen (bytesOf ("MIME-Version: 1.0\r\n" ++
        "Message-ID: <CAMgUg7badnLexYVc475ejJzeK97vdok9dKw23pisL6uWgur-Qw@mail.gmail.com>\r\n" ++
        "Date: Wed, 22 Nov 2017 10:21:29 +0000\r\n" ++
        "Subject: For kindle\r\n" ++
        "From: Charles Haynes <haynes@edgeplay.org>\r\n" ++
        "To:")) = 0 := by decide
  have c2 : countOcc boundaryOpen (bytesOf (
        "ontent-Type: multipart/mixed; boundary=\"f403043895ccc776c6055e8fae42\"\r\n" ++
        "\r\n" ++
        "--f403043895ccc776c6055e8fae42\r\n" ++
        "Content-Type: application/octet-stream; \r\n" ++
        "\tname=")) = 1 := by decide
  have c3 : countOcc boundaryOpen (bytesOf ("\r\n" ++
        "Content-Disposition: attachment; \r\n" ++
        "\tfilename=")) = 0 := by decide
  have c4 : countOcc boundaryOpen (bytesOf ("\r\n" ++
        "Content-Transfer-Encoding: base64\r\n" ++
        "X-Attachment-Id: 15fe33f078e2fcfdb251\r\n" ++
        "Content-ID: <15fe33f078e2fcfdb251")) = 0 := by decide
  have c5 : countOcc boundaryOpen (bytesOf ("\r\n" ++
        "--f403043895ccc776c6055e8fae42--\r\n")) = 0 := by decide
  rw [c1, c2, c3, c4, c5]
  omega

set_option maxRecDepth 100000 in
/-- The boundary-close marker in the message: once in the template, and wherever the
recipient or the file name holds it. -/
theorem countOcc_boundaryClose (r n b : List Nat) :
    countOcc boundaryClose (buildMessage r n b) =
      1 + countOcc boundaryClose r + 2 * countOcc boundaryClose n := by
  have h := countOcc_buildMessage (bytesOf "-f403043895ccc776c6055e8fae42--") r n b
    (by decide) (by decide) (by decide) (by decide)
  have e : 45 :: bytesOf "-f403043895ccc776c6055e8fae42--" = boundaryClose := by decide
  rw [e] at h
  rw [h]
  have c0 : countOcc boundaryClose (r ++ [13, 10]) = countOcc boundaryClose r := by
    rw [countOcc_sep _ _ _ _ (by decide)]
    have : countOcc boundaryClose [10] = 0 := by decide
    omega
  have c1 : countOcc boundaryClose (bytesOf ("MIME-Version: 1.0\r\n" ++
        "Message-ID: <CAMgUg7badnLexYVc475ejJzeK97vdok9dKw23pisL6uWgur-Qw@mail.gmail.com>\r\n" ++
        "Date: Wed, 22 Nov 2017 10:21:29 +0000\r\n" ++
        "Subject: For kindle\r\n" ++
        "From: Charles Haynes <haynes@edgeplay.org>\r\n" ++
        "To:")) = 0 := by decide
  have c2 : countOcc boundaryClose (bytesOf (
        "ontent-Type: multipart/mixed; boundary=\"f403043895ccc776c6055e8fae42\"\r\n" ++
        "\r\n" ++
        "--f403043895ccc776c6055e8fae42\r\n" ++
        "Content-Type: application/octet-stream; \r\n" ++
        "\tname=")) = 0 := by decide
  have c3 : countOcc boundaryClose (bytesOf ("\r\n" ++
        "Content-Disposition: attachment; \r\n" ++
        "\tfilename=")) = 0 := by decide
  have c4 : countOcc boundaryClose (bytesOf ("\r\n" ++
        "Content-Transfer-Encoding: base64\r\n" ++
        "X-Attachment-Id: 15fe33f078e2fcfdb251\r\n" ++
        "Content-ID: <15fe33f078e2fcfdb251")) = 0 := by decide
  have c5 : countOcc boundaryClose (bytesOf ("\r\n" ++
        "--f403043895ccc776c6055e8fae42--\r\n")) = 1 := by decide
  rw [c0, c1, c2, c3, c4, c5]
  omega

/-! ## CRLF line terminators -/

theorem scanCRLF_append_closed : ∀ (p : Bool) (x y : List Nat),
    scanCRLF p x = true → scanCRLF p (x ++ y) = scanCRLF false y
  | true, [], _, h => by simp [scanCRLF] at h
  | false, [], _, _ => rfl
  | true, c :: cs, y, h => by
    simp only [scanCRLF, Bool.and_eq_true, beq_iff_eq] at h
    simp only [List.cons_append, scanCRLF, h.1, beq_self_eq_true, Bool.true_and]
    exact scanCRLF_append_closed false cs y h.2
  | false, c :: cs, y, h => by
    simp only [scanCRLF] at h
    simp only [List.cons_append, scanCRLF]
    split_ifs at h ⊢ with h10 h13
    · exact scanCRLF_append_closed true cs y h
    · exact scanCRLF_append_closed false cs y h

theorem scanCRLF_true_cons (a : Nat) (l : List Nat) :
    scanCRLF true (a :: l) = (a == 10 && scanCRLF false l) := rfl

theorem scanCRLF_false_cons (a : Nat) (l : List Nat) :
    scanCRLF false (a :: l) =
      if a = 10 then false else if a = 13 then scanCRLF true l else scanCRLF false l := rfl

theorem scanCRLF_append_cons : ∀ (p : Bool) (x : List Nat) (c : Nat) (y : List Nat), c ≠ 10 →
    scanCRLF p (x ++ c :: y) = (scanCRLF p x && scanCRLF false (c :: y))
  | true, [], c, y, hc => by
    rw [List.nil_append, scanCRLF_true_cons]
    simp [scanCRLF, hc]
  | false, [], _, _, _ => by simp [scanCRLF]
  | true, a :: x, c, y, hc => by
    rw [List.cons_append, scanCRLF_true_cons, scanCRLF_true_cons a x,
      scanCRLF_append_cons false x c y hc, Bool.and_assoc]
  | false, a :: x, c, y, hc => by
    rw [List.cons_append, scanCRLF_false_cons, scanCRLF_false_cons a x]
    split_ifs with h10 h13
    · simp
    · exact scanCRLF_append_cons true x c y hc
    · exact scanCRLF_append_cons false x c y hc

theorem scanCRLF_cons_other (c : Nat) (y : List Nat) (h10 : c ≠ 10) (h13 : c ≠ 13) :
    scanCRLF false (c :: y) = scanCRLF false y := by
  simp [scanCRLF, h10, h13]

theorem scanCRLF_of_not_mem : ∀ s : List Nat, 13 ∉ s → 10 ∉ s → scanCRLF false s = true
  | [], _, _ => rfl
  | c :: cs, h13, h10 => by
    have a : c ≠ 10 := fun e => h10 (by simp [e])
    have b : c ≠ 13 := fun e => h13 (by simp [e])
    rw [scanCRLF_cons_other c cs a b]
    exact scanCRLF_of_not_mem cs (fun h => h13 (List.mem_cons_of_mem _ h))
      (fun h => h10 (List.mem_cons_of_mem _ h))

set_option maxRecDepth 100000 in
/-- The scan of the message comes down to the scans of the recipient and of the file
name: the template and the base64 text pass it. -/
theorem scanCRLF_buildMessage (r n b : List Nat) :
    scanCRLF false (buildMessage r n b) = (scanCRLF false r && scanCRLF false n) := by
  have hs : scanCRLF false ([13, 10, 13, 10] ++ encodeToString b) = true := by
    rw [scanCRLF_append_closed false _ _ (by decide)]
    exact scanCRLF_of_not_mem _ (encodeToString_clean b).2.1 (encodeToString_clean b).2.2
  have hr : scanCRLF false (r ++ [13, 10]) = scanCRLF false r := by
    rw [scanCRLF_append_cons false r 13 [10] (by decide)]
    have : scanCRLF false [13, 10] = true := by decide
    rw [this, Bool.and_true]
  rw [buildMessage_separated,
    scanCRLF_append_closed false _ _ (by decide),
    scanCRLF_cons_other 32 _ (by decide) (by decide),
    scanCRLF_append_cons false _ 67 _ (by decide), hr,
    scanCRLF_cons_other 67 _ (by decide) (by decide),
    scanCRLF_append_closed false _ _ (by decide),
    scanCRLF_cons_other 34 _ (by decide) (by decide),
    scanCRLF_append_cons false n 34 _ (by decide),
    scanCRLF_cons_other 34 _ (by decide) (by decide),
    scanCRLF_append_closed false _ _ (by decide),
    scanCRLF_cons_other 34 _ (by decide) (by decide),
    scanCRLF_append_cons false n 34 _ (by decide),
    scanCRLF_cons_other 34 _ (by decide) (by decide),
    scanCRLF_append_closed false _ _ (by decide),
    scanCRLF_cons_other 62 _ (by decide) (by decide),
    scanCRLF_append_closed false _ _ hs]
  have hE : scanCRLF false (bytesOf ("\r\n" ++ "--f403043895ccc776c6055e8fae42--\r\n")) = true := by
    decide
  rw [hE]
  cases scanCRLF false r <;> cases scanCRLF false n <;> rfl

theorem not_crlf_lf_first (cs : List Nat) : ¬ CRLFThroughout (10 :: cs) := by
  intro h
  obtain ⟨j, hj, _⟩ := h.1 0 (by simp)
  omega

theorem not_crlf_cr_last : ¬ CRLFThroughout [13] := by
  intro h
  have := h.2 0 (by simp)
  simp at this

theorem crlf_cons_other (c : Nat) (cs : List Nat) (h10 : c ≠ 10) (h13 : c ≠ 13) :
    CRLFThroughout (c :: cs) ↔ CRLFThroughout cs := by
  constructor
  · intro h
    refine ⟨fun i hi => ?_, fun i hi => ?_⟩
    · obtain ⟨j, hj, hj2⟩ := h.1 (i + 1) (by simpa using hi)
      have hji : j = i := by omega
      subst hji
      rcases j with _ | k
      · simp at hj2; exact absurd hj2 h13
      · exact ⟨k, rfl, by simpa using hj2⟩
    · have := h.2 (i + 1) (by simpa using hi)
      simpa using this
  · intro h
    refine ⟨fun i hi => ?_, fun i hi => ?_⟩
    · rcases i with _ | k
      · simp at hi; exact absurd hi h10
      · obtain ⟨j, hj, hj2⟩ := h.1 k (by simpa using hi)
        exact ⟨j + 1, by omega, by simpa using hj2⟩
    · rcases i with _ | k
      · simp at hi; exact absurd hi h13
      · have := h.2 k (by simpa using hi)
        simpa using this

theorem crlf_cr_cons (c : Nat) (cs : List Nat) :
    CRLFThroughout (13 :: c :: cs) ↔ c = 10 ∧ CRLFThroughout cs := by
  constructor
  · intro h
    have hc : c = 10 := by simpa using h.2 0 (by simp)
    subst hc
    refine ⟨rfl, fun i hi => ?_, fun i hi => ?_⟩
    · obtain ⟨j, hj, hj2⟩ := h.1 (i + 2) (by simpa using hi)
      have hji : j = i + 1 := by omega
      subst hji
      rcases i with _ | k
      · simp at hj2
      · exact ⟨k, rfl, by simpa using hj2⟩
    · have := h.2 (i + 2) (by simpa using hi)
      simpa using this
  · rintro ⟨rfl, h⟩
    refine ⟨fun i hi => ?_, fun i hi => ?_⟩
    · rcases i with _ | _ | k
      · simp at hi
      · exact ⟨0, rfl, by simp⟩
      · obtain ⟨j, hj, hj2⟩ := h.1 k (by simpa using hi)
        exact ⟨j + 2, by omega, by simpa using hj2⟩
    · rcases i with _ | _ | k
      · simp
      · simp at hi
      · have := h.2 k (by simpa using hi)
        simpa using this

/-- The scan decides `CRLFThroughout`; with a carriage return pending it decides it for
the list with that carriage return in front. -/
theorem scanCRLF_iff : ∀ m : List Nat,
    (scanCRLF false m = true ↔ CRLFThroughout m) ∧
    (scanCRLF true m = true ↔ CRLFThroughout (13 :: m))
  | [] => by
    refine ⟨⟨fun _ => ⟨fun i hi => by simp at hi, fun i hi => by simp at hi⟩, fun _ => rfl⟩, ?_⟩
    simp only [scanCRLF, Bool.not_true, Bool.false_eq_true, false_iff]
    exact not_crlf_cr_last
  | c :: cs => by
    have ih := scanCRLF_iff cs
    constructor
    · rw [scanCRLF_false_cons]
      split_ifs with h10 h13
      · subst h10
        simp only [Bool.false_eq_true, false_iff]
        exact not_crlf_lf_first cs
      · subst h13
        exact ih.2
      · rw [crlf_cons_other c cs h10 h13]
        exact ih.1
    · rw [scanCRLF_true_cons, crlf_cr_cons, Bool.and_eq_true, beq_iff_eq, ih.1]

theorem crlfThroughout_iff_scan (m : List Nat) : CRLFThroughout m ↔ scanCRLF false m = true :=
  (scanCRLF_iff m).1.symm

/-- A list without carriage return and line feed uses CRLF throughout. -/
theorem crlfThroughout_of_not_mem (m : List Nat) (h13 : 13 ∉ m) (h10 : 10 ∉ m) :
    CRLFThroughout m :=
  (crlfThroughout_iff_scan m).mpr (scanCRLF_of_not_mem m h13 h10)

/-! ## The delivery -/

theorem lastIndexFrom_at_neg : ∀ (s : List Nat) (i : Nat) (acc : Int),
    lastIndexFrom [64] s i acc < 0 ↔ acc < 0 ∧ 64 ∉ s
  | [], i, acc => by simp [lastIndexFrom]
  | c :: cs, i, acc => by
    rw [lastIndexFrom, lastIndexFrom_at_neg cs (i + 1)]
    by_cases hc : c = 64
    · subst hc
      simp [List.isPrefixOf]
    · have hc2 : ¬ (64 = c) := fun e => hc e.symm
      simp [List.isPrefixOf, hc, hc2]

/-- The test `at < 0` of line 99 holds exactly for a recipient without `@`. -/
theorem lastIndex_at_neg (s : List Nat) : lastIndex s (bytesOf "@") < 0 ↔ 64 ∉ s := by
  have e : bytesOf "@" = [64] := by decide
  rw [e, lastIndex, lastIndexFrom_at_neg]
  simp

/-- The run up to the dial, when the file is read, the recipient has an `@`, the
lookup gives a record and no error, and the dial succeeds: the session follows, and
then the deferred close. -/
theorem sendToKindle_connected (w : World) (toAddr f c : List Nat) (mx0 : MX) (mxs : List MX)
    (hread : w.readFile f = (c, none)) (hat : 64 ∈ toAddr)
    (hmx : w.lookupMX (toAddr.drop (lastIndex toAddr (bytesOf "@") + 1).toNat)
      = (mx0 :: mxs, none))
    (hdial : w.dialTimeout (bytesOf "tcp4") (mx0.host ++ bytesOf ":25") 10 = none) :
    sendToKindle w toAddr f =
      (.readFile f :: .lookupMX (toAddr.drop (lastIndex toAddr (bytesOf "@") + 1).toNat) ::
        .dialTimeout (bytesOf "tcp4") (mx0.host ++ bytesOf ":25") 10 ::
        (runDeferred (smtpSession w toAddr (buildMessage toAddr (pathBase f) c))).1,
       (runDeferred (smtpSession w toAddr (buildMessage toAddr (pathBase f) c))).2) := by
  have hneg : ¬ lastIndex toAddr (bytesOf "@") < 0 := fun h => (lastIndex_at_neg toAddr).mp h hat
  have hfmt : sprintf (bytesOf "%s:25") [mx0.host] = mx0.host ++ bytesOf ":25" := by
    have e : bytesOf "%s:25" = [] ++ 37 :: 115 :: bytesOf ":25" := by decide
    rw [e, sprintf_verb _ _ _ _ (by simp), sprintf_nil_args _ (by decide)]
    rfl
  simp only [sendToKindle, hread, hneg, if_false, hmx, hfmt, hdial, buildMessage]

/-- The session up to `RCPT TO`: the result of `client.Mail` plays no part. -/
theorem smtpSession_rcpt_rejected (w : World) (toAddr m : List Nat) (e : GoError)
    (hnew : w.newClient (bytesOf "ceh.bz") = none) (hrcpt : w.rcpt toAddr = some e) :
    smtpSession w toAddr m =
      ([.newClient (bytesOf "ceh.bz"), .mail (bytesOf "ceh@ceh.bz"), .rcpt toAddr],
        .fatal (.error e)) := by
  simp only [smtpSession, hnew, hrcpt]

/-- The session from the write on, for a server that accepted the handshake, `RCPT TO`
and `DATA`. -/
theorem smtpSession_write (w : World) (toAddr m : List Nat)
    (hnew : w.newClient (bytesOf "ceh.bz") = none) (hrcpt : w.rcpt toAddr = none)
    (hdata : w.data = none) :
    (∀ n : Int, w.write m = (n, none) → n < (m.length : Int) →
      smtpSession w toAddr m =
        ([.newClient (bytesOf "ceh.bz"), .mail (bytesOf "ceh@ceh.bz"), .rcpt toAddr, .data,
          .write m], .fatal (.error .errShortWrite))) ∧
    (∀ (n : Int) (e : GoError), w.write m = (n, some e) →
      smtpSession w toAddr m =
        ([.newClient (bytesOf "ceh.bz"), .mail (bytesOf "ceh@ceh.bz"), .rcpt toAddr, .data,
          .write m], .fatal (.error e))) := by
  constructor
  · intro n hw hn
    simp only [smtpSession, hnew, hrcpt, hdata, hw, hn, and_self, if_true]
  · intro n e hw
    simp [smtpSession, hnew, hrcpt, hdata, hw]

theorem runDeferred_fatal (tr : List Call) (l : Logged) :
    runDeferred (tr, .fatal l) = (tr, .fatal l) := rfl

/-- The session does not read the answer to `MAIL FROM`. -/
theorem smtpSession_mail_irrelevant (w : World) (toAddr m : List Nat)
    (answer : List Nat → Option GoError) :
    smtpSession { w with mail := answer } toAddr m = smtpSession w toAddr m := rfl

/-- The session starts with the handshake, `MAIL FROM` and `RCPT TO` whenever the
handshake is accepted. -/
theorem smtpSession_starts (w : World) (toAddr m : List Nat)
    (hnew : w.newClient (bytesOf "ceh.bz") = none) :
    ∃ rest, (smtpSession w toAddr m).1 =
      [.newClient (bytesOf "ceh.bz"), .mail (bytesOf "ceh@ceh.bz"), .rcpt toAddr] ++ rest := by
  simp only [smtpSession, hnew]
  repeat' (first | exact ⟨_, rfl⟩ | split)

theorem runDeferred_starts (r : List Call × Ending) (pre : List Call)
    (h : ∃ rest, r.1 = pre ++ rest) : ∃ rest, (runDeferred r).1 = pre ++ rest := by
  obtain ⟨rest, hr⟩ := h
  unfold runDeferred
  split
  · exact ⟨rest, hr⟩
  · exact ⟨rest ++ [.connClose], by simp [hr]⟩

/-- The session makes no `conn.Close()` of its own and ends by a return or by
`log.Fatal`. -/
theorem smtpSession_no_connClose (w : World) (toAddr m : List Nat) :
    (smtpSession w toAddr m).1.count .connClose = 0 ∧
      ((smtpSession w toAddr m).2 = .returned ∨ ∃ l, (smtpSession w toAddr m).2 = .fatal l) := by
  rcases hw : w.write m with ⟨n, _ | e⟩ <;>
  cases h1 : w.newClient (bytesOf "ceh.bz") <;> cases h2 : w.rcpt toAddr <;>
  cases h3 : w.data <;> cases h4 : w.close <;> cases h5 : w.quit <;>
  by_cases hn : n < (m.length : Int) <;>
  simp [smtpSession, hw, h1, h2, h3, h4, h5, hn]

theorem runDeferred_count (r : List Call × Ending) (h0 : r.1.count .connClose = 0)
    (h1 : r.2 = .returned ∨ ∃ l, r.2 = .fatal l) :
    (runDeferred r).1.count .connClose = if (runDeferred r).2 = .returned then 1 else 0 := by
  obtain ⟨tr, e⟩ := r
  rcases h1 with h | ⟨l, h⟩
  · simp only at h h0
    subst h
    simp [runDeferred, h0]
  · simp only at h h0
    subst h
    simp [runDeferred, h0]

/-- The calls of `conn.Close()` in a run: one when `sendToKindle` returns, none when
it ends in `log.Fatal` or in the panic. -/
theorem connClose_count (w : World) (toAddr f : List Nat) :
    (sendToKindle w toAddr f).1.count .connClose =
      if (sendToKindle w toAddr f).2 = .returned then 1 else 0 := by
  rcases hr : w.readFile f with ⟨c, _ | e⟩
  · by_cases hat : lastIndex toAddr (bytesOf "@") < 0
    · simp [sendToKindle, hr, hat]
    · rcases hl : w.lookupMX (toAddr.drop (lastIndex toAddr (bytesOf "@") + 1).toNat)
        with ⟨_ | ⟨mx0, mxs⟩, _ | e⟩
      · simp [sendToKindle, hr, hat, hl]
      · simp [sendToKindle, hr, hat, hl]
      · cases hd : w.dialTimeout (bytesOf "tcp4") (sprintf (bytesOf "%s:25") [mx0.host]) 10
        · have key := runDeferred_count _
            (smtpSession_no_connClose w toAddr
              (sprintf msgFmt [toAddr, pathBase f, pathBase f, encodeToString c])).1
            (smtpSession_no_connClose w toAddr
              (sprintf msgFmt [toAddr, pathBase f, pathBase f, encodeToString c])).2
          simp only [sendToKindle, hr, hat, hl, hd, if_false]
          rw [← key]
          simp [List.count_cons]
        · simp [sendToKindle, hr, hat, hl, hd]
      · simp [sendToKindle, hr, hat, hl]
  · simp [sendToKindle, hr]

/-- Every body that a run writes is the message built from the recipient, the base name
of the file and the contents read. -/
theorem write_is_buildMessage (w : World) (toAddr f p : List Nat)
    (h : Call.write p ∈ (sendToKindle w toAddr f).1) :
    p = buildMessage toAddr (pathBase f) (w.readFile f).1 := by
  have hs : ∀ m, Call.write p ∈ (smtpSession w toAddr m).1 → p = m := by
    intro m
    rcases hw : w.write m with ⟨n, _ | e⟩ <;>
    cases h1 : w.newClient (bytesOf "ceh.bz") <;> cases h2 : w.rcpt toAddr <;>
    cases h3 : w.data <;> cases h4 : w.close <;> cases h5 : w.quit <;>
    by_cases hn : n < (m.length : Int) <;>
    simp [smtpSession, hw, h1, h2, h3, h4, h5, hn]
  have hd : ∀ r : List Call × Ending, Call.write p ∈ (runDeferred r).1 → Call.write p ∈ r.1 := by
    intro r
    unfold runDeferred
    split
    · exact id
    · simp
  revert h
  rcases hr : w.readFile f with ⟨c, _ | e⟩
  · by_cases hat : lastIndex toAddr (bytesOf "@") < 0
    · simp [sendToKindle, hr, hat]
    · rcases hl : w.lookupMX (toAddr.drop (lastIndex toAddr (bytesOf "@") + 1).toNat)
        with ⟨_ | ⟨mx0, mxs⟩, _ | e⟩
      · simp [sendToKindle, hr, hat, hl]
      · simp [sendToKindle, hr, hat, hl]
      · cases hdl : w.dialTimeout (bytesOf "tcp4") (sprintf (bytesOf "%s:25") [mx0.host]) 10
        · simp only [sendToKindle, hr, hat, hl, hdl, if_false, List.mem_cons, reduceCtorEq,
            false_or]
          intro h
          exact hs _ (hd _ h)
        · simp [sendToKindle, hr, hat, hl, hdl]
      · simp [sendToKindle, hr, hat, hl]
  · simp [sendToKindle, hr]

/-- A lookup that returns an error ends the run there: the error is logged and no
connection is tried. -/
theorem lookup_error_is_fatal (w : World) (toAddr f c : List Nat) (mxs : List MX) (e : GoError)
    (hread : w.readFile f = (c, none)) (hat : 64 ∈ toAddr)
    (hmx : w.lookupMX (toAddr.drop (lastIndex toAddr (bytesOf "@") + 1).toNat) = (mxs, some e)) :
    sendToKindle w toAddr f =
      ([.readFile f, .lookupMX (toAddr.drop (lastIndex toAddr (bytesOf "@") + 1).toNat)],
        .fatal (.error e)) := by
  have hneg : ¬ lastIndex toAddr (bytesOf "@") < 0 := fun h => (lastIndex_at_neg toAddr).mp h hat
  simp only [sendToKindle, hread, hneg, if_false, hmx]

set_option maxRecDepth 100000 in
/-- Outside the contract of `net.LookupMX`: were the lookup to return no record and no
error, the indexing `mxs[0]` of line 106 would panic, before any connection. -/
theorem empty_lookup_panics :
    sendToKindle emptyLookupWorld (bytesOf "user@example.com") (bytesOf "book.mobi") =
      ([.readFile (bytesOf "book.mobi"), .lookupMX (bytesOf "example.com")],
        .indexOutOfRange) := by
  decide

/-! ## Header lines and `path.Base` -/

theorem crlfLinesFrom_crlf (cur rest : List Nat) :
    crlfLinesFrom cur (13 :: 10 :: rest) = cur.reverse :: crlfLinesFrom [] rest := by
  simp [crlfLinesFrom]

theorem crlfLinesFrom_step (cur : List Nat) (c d : Nat) (rest : List Nat)
    (h : ¬ (c = 13 ∧ d = 10)) :
    crlfLinesFrom cur (c :: d :: rest) = crlfLinesFrom (c :: cur) (d :: rest) := by
  rw [crlfLinesFrom, if_neg h]

/-- A stretch without CRLF that a CRLF follows is a line. -/
theorem crlfLinesFrom_line : ∀ (x cur y : List Nat), countOcc [13, 10] x = 0 →
    crlfLinesFrom cur (x ++ 13 :: 10 :: y) = (cur.reverse ++ x) :: crlfLinesFrom [] y
  | [], cur, y, _ => by simp [crlfLinesFrom_crlf]
  | [c], cur, y, _ => by
    rw [List.singleton_append, crlfLinesFrom_step _ _ _ _ (by omega), crlfLinesFrom_crlf]
    simp
  | c :: d :: x, cur, y, h => by
    rw [countOcc_cons] at h
    have h1 : ¬ [13, 10] <+: c :: d :: x := fun hp => by simp [hp] at h
    have h2 : countOcc [13, 10] (d :: x) = 0 := by omega
    have h3 : ¬ (c = 13 ∧ d = 10) := by
      rintro ⟨rfl, rfl⟩
      exact h1 (List.prefix_append [13, 10] x)
    rw [List.cons_append, List.cons_append, crlfLinesFrom_step _ _ _ _ h3,
      ← List.cons_append, crlfLinesFrom_line (d :: x) (c :: cur) y h2]
    simp

theorem crlfLines_join : ∀ (ls : List (List Nat)) (w : List Nat),
    (∀ l ∈ ls, countOcc [13, 10] l = 0) → crlfLines (joinLines ls ++ w) = ls ++ crlfLines w
  | [], w, _ => rfl
  | l :: ls, w, h => by
    have ih := crlfLines_join ls w (fun l hl => h l (List.mem_cons_of_mem _ hl))
    unfold crlfLines at ih ⊢
    rw [joinLines, List.append_assoc, List.cons_append, List.cons_append,
      crlfLinesFrom_line l [] _ (h l (List.mem_cons_self _ _)), ih]
    simp

/-- The header found after lines that do not start with the key. -/
theorem headerValue_after (key : List Nat) (ls : List (List Nat)) (x z : List Nat)
    (hls : ∀ l ∈ ls, countOcc [13, 10] l = 0 ∧ key.isPrefixOf l = false)
    (hx : countOcc [13, 10] (key ++ x) = 0) :
    headerValue key (joinLines ls ++ ((key ++ x) ++ 13 :: 10 :: z)) = some x := by
  have hf : List.find? (fun l => key.isPrefixOf l) ls = none := by
    rw [List.find?_eq_none]
    intro l hl
    simp [(hls l hl).2]
  have hk : key.isPrefixOf (key ++ x) = true := by
    rw [List.isPrefixOf_iff_prefix]
    exact List.prefix_append key x
  unfold headerValue
  rw [crlfLines_join ls _ (fun l hl => (hls l hl).1)]
  unfold crlfLines
  rw [crlfLinesFrom_line (key ++ x) [] z hx, List.find?_append, hf]
  simp [List.find?_cons, hk]

/-- The first CRLF of a list that holds one. -/
theorem exists_first_crlf : ∀ r : List Nat, countOcc [13, 10] r ≠ 0 →
    ∃ p q, r = p ++ 13 :: 10 :: q ∧ countOcc [13, 10] p = 0
  | [], h => by simp [countOcc] at h
  | c :: r, h => by
    by_cases hp : [13, 10] <+: c :: r
    · obtain ⟨q, hq⟩ := hp
      exact ⟨[], q, by simpa using hq.symm, by decide⟩
    · rw [countOcc_cons, if_neg hp, Nat.zero_add] at h
      obtain ⟨p, q, hr, hp0⟩ := exists_first_crlf r h
      refine ⟨c :: p, q, by rw [hr]; rfl, ?_⟩
      rw [countOcc_cons, hp0]
      have : ¬ [13, 10] <+: c :: p := fun hh =>
        hp (hr ▸ hh.trans (List.prefix_append (c :: p) (13 :: 10 :: q)))
      simp [this]

theorem takeWhile_quote_append : ∀ (n t : List Nat), 34 ∉ n →
    (n ++ 34 :: t).takeWhile (fun c => c ≠ 34) = n
  | [], t, _ => by simp
  | c :: n, t, h => by
    have hc : c ≠ 34 := fun e => h (by simp [e])
    have ih := takeWhile_quote_append n t (fun hm => h (List.mem_cons_of_mem _ hm))
    rw [List.cons_append, List.takeWhile_cons_of_pos (by simpa using hc), ih]

theorem takeWhile_quote_of_not_mem : ∀ n : List Nat, 34 ∉ n →
    n.takeWhile (fun c => c ≠ 34) = n
  | [], _ => rfl
  | c :: n, h => by
    have hc : c ≠ 34 := fun e => h (by simp [e])
    have ih := takeWhile_quote_of_not_mem n (fun hm => h (List.mem_cons_of_mem _ hm))
    rw [List.takeWhile_cons_of_pos (by simpa using hc), ih]

theorem quote_not_mem_takeWhile : ∀ l : List Nat, 34 ∉ l.takeWhile (fun c => c ≠ 34)
  | [] => by simp
  | c :: l => by
    by_cases hc : c = 34
    · rw [List.takeWhile_cons_of_neg (by simpa using hc)]
      simp
    · have ih := quote_not_mem_takeWhile l
      rw [List.takeWhile_cons_of_pos (by simpa using hc), List.mem_cons, not_or]
      exact ⟨fun e => hc e.symm, ih⟩

theorem length_takeWhile_le (l : List Nat) :
    (l.takeWhile (fun c => c ≠ 34)).length ≤ l.length :=
  (List.takeWhile_sublist _).length_le

set_option maxRecDepth 100000 in
/-- The message as lines: the fixed lines, the line `To: ` with the recipient, the fixed
lines of the part, the lines of `name=` and `filename=` with the file name and its
closing quote, and the rest. -/
theorem buildMessage_lines (r n b : List Nat) :
    buildMessage r n b =
      joinLines headLines ++ (bytesOf "To: " ++ ((r ++ [13, 10]) ++
      (joinLines partLines ++ (bytesOf "\tname=\"" ++ ((n ++ [34, 13, 10]) ++
      (joinLines [bytesOf "Content-Disposition: attachment; "] ++
      (bytesOf "\tfilename=\"" ++ ((n ++ [34, 13, 10]) ++
      (bytesOf ("Content-Transfer-Encoding: base64\r\n" ++
        "X-Attachment-Id: 15fe33f078e2fcfdb251\r\n" ++
        "Content-ID: <15fe33f078e2fcfdb251>\r\n" ++
        "\r\n") ++ (encodeToString b ++
      bytesOf ("\r\n" ++
        "--f403043895ccc776c6055e8fae42--\r\n"))))))))))) := by
  have hA : bytesOf ("MIME-Version: 1.0\r\n" ++
        "Message-ID: <CAMgUg7badnLexYVc475ejJzeK97vdok9dKw23pisL6uWgur-Qw@mail.gmail.com>\r\n" ++
        "Date: Wed, 22 Nov 2017 10:21:29 +0000\r\n" ++
        "Subject: For kindle\r\n" ++
        "From: Charles Haynes <haynes@edgeplay.org>\r\n" ++
        "To: ") = joinLines headLines ++ bytesOf "To: " := by decide
  have hB : bytesOf ("\r\n" ++
        "Content-Type: multipart/mixed; boundary=\"f403043895ccc776c6055e8fae42\"\r\n" ++
        "\r\n" ++
        "--f403043895ccc776c6055e8fae42\r\n" ++
        "Content-Type: application/octet-stream; \r\n" ++
        "\tname=\"") = [13, 10] ++ (joinLines partLines ++ bytesOf "\tname=\"") := by decide
  have hC : bytesOf ("\"\r\n" ++
        "Content-Disposition: attachment; \r\n" ++
        "\tfilename=\"") = [34, 13, 10] ++
      (joinLines [bytesOf "Content-Disposition: attachment; "] ++ bytesOf "\tfilename=\"") := by
    decide
  have hD : bytesOf ("\"\r\n" ++
        "Content-Transfer-Encoding: base64\r\n" ++
        "X-Attachment-Id: 15fe33f078e2fcfdb251\r\n" ++
        "Content-ID: <15fe33f078e2fcfdb251>\r\n" ++
        "\r\n") = [34, 13, 10] ++ bytesOf ("Content-Transfer-Encoding: base64\r\n" ++
        "X-Attachment-Id: 15fe33f078e2fcfdb251\r\n" ++
        "Content-ID: <15fe33f078e2fcfdb251>\r\n" ++
        "\r\n") := by decide
  rw [buildMessage_eq, hA, hB, hC, hD]
  simp only [List.append_assoc]

theorem joinLines_append : ∀ (ls ms : List (List Nat)),
    joinLines (ls ++ ms) = joinLines ls ++ joinLines ms
  | [], _ => rfl
  | l :: ls, ms => by
    rw [List.cons_append, joinLines, joinLines, joinLines_append ls ms]
    simp

theorem countOcc_crlf_to (x : List Nat) (h : countOcc [13, 10] x = 0) :
    countOcc [13, 10] (bytesOf "To: " ++ x) = 0 := by
  have e : bytesOf "To: " = bytesOf "To:" ++ [32] := by decide
  rw [e, List.append_assoc, List.singleton_append, countOcc_sep _ _ _ _ (by decide), h]
  decide

theorem countOcc_crlf_name (x : List Nat) (h : countOcc [13, 10] x = 0) :
    countOcc [13, 10] (bytesOf "\tname=\"" ++ x) = 0 := by
  have e : bytesOf "\tname=\"" = bytesOf "\tname=" ++ [34] := by decide
  rw [e, List.append_assoc, List.singleton_append, countOcc_sep _ _ _ _ (by decide), h]
  decide

theorem countOcc_crlf_filename (x : List Nat) (h : countOcc [13, 10] x = 0) :
    countOcc [13, 10] (bytesOf "\tfilename=\"" ++ x) = 0 := by
  have e : bytesOf "\tfilename=\"" = bytesOf "\tfilename=" ++ [34] := by decide
  rw [e, List.append_assoc, List.singleton_append, countOcc_sep _ _ _ _ (by decide), h]
  decide

theorem countOcc_crlf_quote (n : List Nat) (h : countOcc [13, 10] n = 0) :
    countOcc [13, 10] (n ++ [34]) = 0 := by
  rw [countOcc_sep _ _ _ _ (by decide), h]
  decide

/-- The value of `To: ` in the message is the recipient up to its first CRLF. -/
theorem headerValue_to (r n b p q : List Nat) (hp : countOcc [13, 10] p = 0)
    (hr : r ++ [13, 10] = p ++ 13 :: 10 :: q) :
    headerValue (bytesOf "To: ") (buildMessage r n b) = some p := by
  rw [buildMessage_lines, hr]
  have := headerValue_after (bytesOf "To: ") headLines p
    (q ++ (joinLines partLines ++ (bytesOf "\tname=\"" ++ ((n ++ [34, 13, 10]) ++
      (joinLines [bytesOf "Content-Disposition: attachment; "] ++
      (bytesOf "\tfilename=\"" ++ ((n ++ [34, 13, 10]) ++
      (bytesOf ("Content-Transfer-Encoding: base64\r\n" ++
        "X-Attachment-Id: 15fe33f078e2fcfdb251\r\n" ++
        "Content-ID: <15fe33f078e2fcfdb251>\r\n" ++
        "\r\n") ++ (encodeToString b ++
      bytesOf ("\r\n" ++
        "--f403043895ccc776c6055e8fae42--\r\n"))))))))))
    (by decide) (countOcc_crlf_to p hp)
  simpa only [List.append_assoc, List.cons_append] using this

/-- The line of `name=` in the message holds the file name up to its first CRLF, when
the recipient holds no CRLF. -/
theorem headerValue_name (r n b p q : List Nat) (hr0 : countOcc [13, 10] r = 0)
    (hp : countOcc [13, 10] p = 0) (hn : n ++ [34, 13, 10] = p ++ 13 :: 10 :: q) :
    headerValue (bytesOf "\tname=\"") (buildMessage r n b) = some p := by
  rw [buildMessage_lines, hn]
  have hkey : (bytesOf "\tname=\"").isPrefixOf (bytesOf "To: " ++ r) = false := by
    have e1 : bytesOf "To: " = 84 :: bytesOf "o: " := by decide
    have e2 : bytesOf "\tname=\"" = 9 :: bytesOf "name=\"" := by decide
    rw [e1, e2]
    simp [List.isPrefixOf]
  have := headerValue_after (bytesOf "\tname=\"")
    (headLines ++ (bytesOf "To: " ++ r) :: partLines) p
    (q ++ (joinLines [bytesOf "Content-Disposition: attachment; "] ++
      (bytesOf "\tfilename=\"" ++ ((p ++ 13 :: 10 :: q) ++
      (bytesOf ("Content-Transfer-Encoding: base64\r\n" ++
        "X-Attachment-Id: 15fe33f078e2fcfdb251\r\n" ++
        "Content-ID: <15fe33f078e2fcfdb251>\r\n" ++
        "\r\n") ++ (encodeToString b ++
      bytesOf ("\r\n" ++
        "--f403043895ccc776c6055e8fae42--\r\n")))))))
    (List.forall_mem_append.mpr ⟨by decide,
      List.forall_mem_cons.mpr ⟨⟨countOcc_crlf_to r hr0, hkey⟩, by decide⟩⟩)
    (countOcc_crlf_name p hp)
  rw [joinLines_append, joinLines] at this
  simpa only [List.append_assoc, List.cons_append, List.nil_append] using this

/-- The line of `filename=` in the message holds the file name and its closing quote,
when the recipient and the file name hold no CRLF. -/
theorem headerValue_filename (r n b : List Nat) (hr0 : countOcc [13, 10] r = 0)
    (hn0 : countOcc [13, 10] n = 0) :
    headerValue (bytesOf "\tfilename=\"") (buildMessage r n b) = some (n ++ [34]) := by
  rw [buildMessage_lines]
  have hk1 : (bytesOf "\tfilename=\"").isPrefixOf (bytesOf "To: " ++ r) = false := by
    have e1 : bytesOf "To: " = 84 :: bytesOf "o: " := by decide
    have e2 : bytesOf "\tfilename=\"" = 9 :: bytesOf "filename=\"" := by decide
    rw [e1, e2]
    simp [List.isPrefixOf]
  have hk2 : (bytesOf "\tfilename=\"").isPrefixOf (bytesOf "\tname=\"" ++ (n ++ [34]))
      = false := by
    have e1 : bytesOf "\tname=\"" = 9 :: 110 :: bytesOf "ame=\"" := by decide
    have e2 : bytesOf "\tfilename=\"" = 9 :: 102 :: bytesOf "ilename=\"" := by decide
    rw [e1, e2]
    simp [List.isPrefixOf]
  have := headerValue_after (bytesOf "\tfilename=\"")
    (headLines ++ (bytesOf "To: " ++ r) :: (partLines ++
      [bytesOf "\tname=\"" ++ (n ++ [34]), bytesOf "Content-Disposition: attachment; "]))
    (n ++ [34])
    (bytesOf ("Content-Transfer-Encoding: base64\r\n" ++
        "X-Attachment-Id: 15fe33f078e2fcfdb251\r\n" ++
        "Content-ID: <15fe33f078e2fcfdb251>\r\n" ++
        "\r\n") ++ (encodeToString b ++
      bytesOf ("\r\n" ++
        "--f403043895ccc776c6055e8fae42--\r\n")))
    (List.forall_mem_append.mpr ⟨by decide,
      List.forall_mem_cons.mpr ⟨⟨countOcc_crlf_to r hr0, hk1⟩,
        List.forall_mem_append.mpr ⟨by decide,
          List.forall_mem_cons.mpr ⟨⟨countOcc_crlf_name _ (countOcc_crlf_quote n hn0), hk2⟩,
            by decide⟩⟩⟩⟩)
    (countOcc_crlf_filename _ (countOcc_crlf_quote n hn0))
  rw [joinLines_append, joinLines, joinLines_append, joinLines, joinLines] at this
  simpa only [joinLines, List.append_assoc, List.cons_append, List.nil_append] using this

/-- The value of `To: ` is the recipient exactly when the recipient holds no CRLF. -/
theorem headerValue_to_iff (r n b : List Nat) :
    headerValue (bytesOf "To: ") (buildMessage r n b) = some r ↔ countOcc [13, 10] r = 0 := by
  constructor
  · intro h
    by_contra hc
    obtain ⟨p, q, hr, hp⟩ := exists_first_crlf r hc
    rw [headerValue_to r n b p (q ++ [13, 10]) hp (by rw [hr]; simp)] at h
    have hl := congrArg List.length (Option.some.inj h)
    rw [hr] at hl
    simp at hl
  · intro h
    exact headerValue_to r n b r [] h rfl

/-- The parameter `name=` is the file name exactly when the file name holds no double
quote and no CRLF, for a recipient without CRLF. -/
theorem quotedParam_name_iff (r n b : List Nat) (hr0 : countOcc [13, 10] r = 0) :
    quotedParam (bytesOf "\tname=\"") (buildMessage r n b) = some n ↔
      34 ∉ n ∧ countOcc [13, 10] n = 0 := by
  constructor
  · intro h
    have hq : 34 ∉ n := by
      unfold quotedParam at h
      obtain ⟨v, _, hv⟩ := Option.map_eq_some'.mp h
      rw [← hv]
      exact quote_not_mem_takeWhile v
    refine ⟨hq, ?_⟩
    by_contra hc
    obtain ⟨p, q, hn, hp⟩ := exists_first_crlf n hc
    unfold quotedParam at h
    rw [headerValue_name r n b p (q ++ [34, 13, 10]) hr0 hp (by rw [hn]; simp)] at h
    have hl := congrArg List.length (Option.some.inj h)
    have hle := length_takeWhile_le p
    rw [hn] at hl
    simp only [List.length_append, List.length_cons] at hl
    omega
  · rintro ⟨hq, hn0⟩
    unfold quotedParam
    rw [headerValue_name r n b (n ++ [34]) [] hr0 (countOcc_crlf_quote n hn0) (by simp)]
    simp only [Option.map_some']
    rw [takeWhile_quote_append n [] hq]

/-- The parameter `filename=` is the file name when the recipient holds no CRLF and the
file name no double quote and no CRLF. -/
theorem quotedParam_filename (r n b : List Nat) (hr0 : countOcc [13, 10] r = 0)
    (hq : 34 ∉ n) (hn0 : countOcc [13, 10] n = 0) :
    quotedParam (bytesOf "\tfilename=\"") (buildMessage r n b) = some n := by
  unfold quotedParam
  rw [headerValue_filename r n b hr0 hn0]
  simp only [Option.map_some']
  rw [takeWhile_quote_append n [] hq]

theorem dropSlashes_reverse (pre name : List Nat) (hne : name ≠ []) (h : 47 ∉ name) :
    dropSlashes (pre ++ name).reverse = (pre ++ name).reverse := by
  rw [List.reverse_append]
  cases hr : name.reverse with
  | nil => exact absurd (List.reverse_eq_nil_iff.mp hr) hne
  | cons c t =>
    have hc : c ≠ 47 := by
      rintro rfl
      exact h (List.mem_reverse.mp (hr ▸ List.mem_cons_self _ _))
    simp [dropSlashes, hc]

theorem lastIndexFrom_slash_absent : ∀ (name : List Nat) (i : Nat) (acc : Int), 47 ∉ name →
    lastIndexFrom [47] name i acc = acc
  | [], _, _, _ => by simp [lastIndexFrom]
  | c :: name, i, acc, h => by
    have hc : ¬ (47 = c) := fun e => h (by simp [e])
    rw [lastIndexFrom, lastIndexFrom_slash_absent name (i + 1) _
      (fun hm => h (List.mem_cons_of_mem _ hm))]
    simp [List.isPrefixOf, hc]

theorem lastIndexFrom_slash_last : ∀ (dir name : List Nat) (i : Nat) (acc : Int), 47 ∉ name →
    lastIndexFrom [47] (dir ++ 47 :: name) i acc = ((i + dir.length : Nat) : Int)
  | [], name, i, acc, h => by
    rw [List.nil_append, lastIndexFrom, lastIndexFrom_slash_absent name (i + 1) _ h]
    simp [List.isPrefixOf]
  | c :: dir, name, i, acc, h => by
    rw [List.cons_append, lastIndexFrom, lastIndexFrom_slash_last dir name (i + 1) _ h]
    simp only [List.length_cons]
    congr 1
    omega

/-- `path.Base` of a file name without directory is the name. -/
theorem pathBase_plain (name : List Nat) (hne : name ≠ []) (h : 47 ∉ name) :
    pathBase name = name := by
  have e : bytesOf "/" = [47] := by decide
  have hd := dropSlashes_reverse [] name hne h
  rw [List.nil_append] at hd
  have hl : lastIndex name [47] = -1 := lastIndexFrom_slash_absent name 0 (-1) h
  simp [pathBase, hne, hd, e, hl]

/-- `path.Base` drops the directory: of `dir/name` it is `name`. -/
theorem pathBase_dir (dir name : List Nat) (hne : name ≠ []) (h : 47 ∉ name) :
    pathBase (dir ++ 47 :: name) = name := by
  have e : bytesOf "/" = [47] := by decide
  have hd := dropSlashes_reverse (dir ++ [47]) name hne h
  rw [List.append_assoc, List.singleton_append] at hd
  have hl : lastIndex (dir ++ 47 :: name) [47] = ((0 + dir.length : Nat) : Int) :=
    lastIndexFrom_slash_last dir name 0 (-1) h
  have hnn : dir ++ 47 :: name ≠ [] := by simp
  simp only [pathBase, hnn, if_false, hd, List.reverse_reverse, e, hl]
  have h0 : ((0 + dir.length : Nat) : Int) ≥ 0 := by omega
  have h1 : (((0 + dir.length : Nat) : Int) + 1).toNat = dir.length + 1 := by omega
  simp only [h0, if_true, h1]
  have h2 : (dir ++ 47 :: name).drop (dir.length + 1) = name := by
    rw [show dir ++ 47 :: name = (dir ++ [47]) ++ name by simp]
    exact List.drop_left' (by simp)
  rw [h2, if_neg hne]

theorem dropSlashes_replicate (k : Nat) (l : List Nat) :
    dropSlashes (List.replicate k 47 ++ l) = dropSlashes l := by
  induction k with
  | zero => rfl
  | succ k ih => simp [List.replicate_succ, dropSlashes, ih]

/-- `path.Base` takes no account of trailing slashes. -/
theorem pathBase_trailing (core : List Nat) (k : Nat) (hne : core ≠ []) :
    pathBase (core ++ List.replicate k 47) = pathBase core := by
  have h1 : core ++ List.replicate k 47 ≠ [] := by simp [hne]
  simp only [pathBase, h1, hne, if_false, List.reverse_append, List.reverse_replicate,
    dropSlashes_replicate]

set_option maxRecDepth 10000 in
/-- `path.Base` of a path of slashes is `/`. -/
theorem pathBase_slashes (k : Nat) : pathBase (List.replicate (k + 1) 47) = bytesOf "/" := by
  have e : List.replicate (k + 1) 47 = [47] ++ List.replicate k 47 := by
    simp [List.replicate_succ]
  rw [e, pathBase_trailing [47] k (by simp)]
  decide

/-! ## The claims -/

/-- C1: for every non-empty byte sequence `b`, the standard base64 decoding
(`DecodeString`) of the payload text `EncodeToString(b)` that `sendToKindle` puts in
the place of the last verb of `msgFmt` returns exactly `b`, with a nil error. -/
theorem base64_round_trip (b : List Nat) (_hne : b ≠ []) (hb : IsBytes b) :
    decodeString (encodeToString b) = some b :=
  decodeString_encodeToString b hb

/-- C1 at the bytes of `Man` and at a remainder of one byte. -/
theorem base64_round_trip_witness :
    decodeString (encodeToString [77, 97, 110, 255]) = some [77, 97, 110, 255] :=
  base64_round_trip [77, 97, 110, 255] (by decide) (by unfold IsBytes; decide)

set_option maxRecDepth 100000 in
/-- C2 fails as stated: for the file name `book--f403043895ccc776c6055e8fae42--.mobi` the message
holds the boundary-close marker three times, not once. -/
theorem boundary_close_not_unique :
    countOcc boundaryClose (buildMessage (bytesOf "user@example.com")
        (bytesOf "book--f403043895ccc776c6055e8fae42--.mobi") (bytesOf "Man")) = 3 ∧
      ¬ countOcc boundaryClose (buildMessage (bytesOf "user@example.com")
        (bytesOf "book--f403043895ccc776c6055e8fae42--.mobi") (bytesOf "Man")) = 1 := by
  decide

set_option maxRecDepth 100000 in
/-- C2, amended: for every recipient `r`, file name `n` and byte sequence `b` the
message is the headers with `r`, the boundary-open marker, the part headers with `n`,
the base64 payload, CRLF, the boundary-close marker and CRLF, so the payload lies
strictly between the open marker and the close marker of the template; and these are
the only occurrences of the two markers exactly when the open marker does not occur in
`r` followed by CRLF, the close marker does not occur in `r`, and neither marker occurs
in `n`. -/
theorem boundary_markers (r n b : List Nat) :
    buildMessage r n b =
      (bytesOf ("MIME-Version: 1.0\r\n" ++
        "Message-ID: <CAMgUg7badnLexYVc475ejJzeK97vdok9dKw23pisL6uWgur-Qw@mail.gmail.com>\r\n" ++
        "Date: Wed, 22 Nov 2017 10:21:29 +0000\r\n" ++
        "Subject: For kindle\r\n" ++
        "From: Charles Haynes <haynes@edgeplay.org>\r\n" ++
        "To: ") ++ r ++ bytesOf ("\r\n" ++
        "Content-Type: multipart/mixed; boundary=\"f403043895ccc776c6055e8fae42\"\r\n" ++
        "\r\n")) ++
      boundaryOpen ++
      (bytesOf ("Content-Type: application/octet-stream; \r\n" ++
        "\tname=\"") ++ n ++ bytesOf ("\"\r\n" ++
        "Content-Disposition: attachment; \r\n" ++
        "\tfilename=\"") ++ n ++ bytesOf ("\"\r\n" ++
        "Content-Transfer-Encoding: base64\r\n" ++
        "X-Attachment-Id: 15fe33f078e2fcfdb251\r\n" ++
        "Content-ID: <15fe33f078e2fcfdb251>\r\n" ++
        "\r\n")) ++
      encodeToString b ++ bytesOf "\r\n" ++ boundaryClose ++ bytesOf "\r\n" ∧
    ((countOcc boundaryOpen (buildMessage r n b) = 1 ∧
        countOcc boundaryClose (buildMessage r n b) = 1) ↔
      (countOcc boundaryOpen (r ++ bytesOf "\r\n") = 0 ∧ countOcc boundaryClose r = 0 ∧
        countOcc boundaryOpen n = 0 ∧ countOcc boundaryClose n = 0)) := by
  constructor
  · have hB : bytesOf ("\r\n" ++
        "Content-Type: multipart/mixed; boundary=\"f403043895ccc776c6055e8fae42\"\r\n" ++
        "\r\n" ++
        "--f403043895ccc776c6055e8fae42\r\n" ++
        "Content-Type: application/octet-stream; \r\n" ++
        "\tname=\"") = bytesOf ("\r\n" ++
        "Content-Type: multipart/mixed; boundary=\"f403043895ccc776c6055e8fae42\"\r\n" ++
        "\r\n") ++ (boundaryOpen ++ bytesOf ("Content-Type: application/octet-stream; \r\n" ++
        "\tname=\"")) := by decide
    have hE : bytesOf ("\r\n" ++ "--f403043895ccc776c6055e8fae42--\r\n") =
        bytesOf "\r\n" ++ (boundaryClose ++ bytesOf "\r\n") := by decide
    rw [buildMessage_eq, hB, hE]
    simp only [List.append_assoc]
  · rw [countOcc_boundaryOpen, countOcc_boundaryClose]
    omega

set_option maxRecDepth 100000 in
/-- C3 at two failing inputs: a server that rejects `RCPT TO` with a 550 reply, and a
server that accepts the handshake, `MAIL FROM`, `RCPT TO` and `DATA` and then takes none
of the bytes written. In both runs the connection has been opened, the run ends in
`log.Fatal`, and `conn.Close()` is never called, because `log.Fatal` exits the process
without running the call that line 111 deferred. -/
theorem fatal_exit_skips_close :
    (Call.dialTimeout (bytesOf "tcp4") (bytesOf "mx.example.com:25") 10 ∈
        (sendToKindle rcptRejectedWorld (bytesOf "user@example.com") (bytesOf "book.mobi")).1 ∧
      (sendToKindle rcptRejectedWorld (bytesOf "user@example.com") (bytesOf "book.mobi")).2 =
        .fatal (.error (.other 550)) ∧
      (sendToKindle rcptRejectedWorld (bytesOf "user@example.com") (bytesOf "book.mobi")).1.count
        .connClose = 0) ∧
    (Call.dialTimeout (bytesOf "tcp4") (bytesOf "mx.example.com:25") 10 ∈
        (sendToKindle shortWriteWorld (bytesOf "user@example.com") (bytesOf "book.mobi")).1 ∧
      (sendToKindle shortWriteWorld (bytesOf "user@example.com") (bytesOf "book.mobi")).2 =
        .fatal (.error .errShortWrite) ∧
      (sendToKindle shortWriteWorld (bytesOf "user@example.com") (bytesOf "book.mobi")).1.count
        .connClose = 0) := by
  decide

/-- C4: for every recipient (with `@`) whose domain has no mail-exchanger record, in a
world whose lookup answers as `net.LookupMX` does, whether the lookup returns an error
or an empty list of records: the run ends in `log.Fatal` of the error of the lookup,
right after the call of `net.LookupMX`, and `net.DialTimeout` is never called. -/
theorem no_mx_record_is_resolution_error (w : World) (toAddr f c : List Nat)
    (hread : w.readFile f = (c, none)) (hat : 64 ∈ toAddr) (hlib : AnswersAsLookupMX w)
    (hno : (w.lookupMX (toAddr.drop (lastIndex toAddr (bytesOf "@") + 1).toNat)).2 ≠ none ∨
      (w.lookupMX (toAddr.drop (lastIndex toAddr (bytesOf "@") + 1).toNat)).1 = []) :
    ∃ e, (w.lookupMX (toAddr.drop (lastIndex toAddr (bytesOf "@") + 1).toNat)).2 = some e ∧
      sendToKindle w toAddr f =
        ([.readFile f, .lookupMX (toAddr.drop (lastIndex toAddr (bytesOf "@") + 1).toNat)],
          .fatal (.error e)) ∧
      ∀ network address seconds,
        Call.dialTimeout network address seconds ∉ (sendToKindle w toAddr f).1 := by
  have herr : (w.lookupMX (toAddr.drop (lastIndex toAddr (bytesOf "@") + 1).toNat)).2 ≠ none :=
    hno.elim id (hlib _)
  obtain ⟨e, he⟩ := Option.ne_none_iff_exists'.mp herr
  have key := lookup_error_is_fatal w toAddr f c
    (w.lookupMX (toAddr.drop (lastIndex toAddr (bytesOf "@") + 1).toNat)).1 e hread hat
    (Prod.ext rfl he)
  refine ⟨e, he, key, ?_⟩
  intro network address seconds
  rw [key]
  simp

/-- C4 at a domain for which the lookup returns `no such host`. -/
theorem no_mx_record_is_resolution_error_witness :
    sendToKindle noSuchHostWorld (bytesOf "user@example.com") (bytesOf "book.mobi") =
      ([.readFile (bytesOf "book.mobi"), .lookupMX (bytesOf "example.com")],
        .fatal (.error (.other 3))) :=
  have h := no_mx_record_is_resolution_error noSuchHostWorld (bytesOf "user@example.com")
    (bytesOf "book.mobi") (bytesOf "Man") rfl (by decide) (fun _ _ h => nomatch h)
    (Or.inr rfl)
  h.elim fun e he => by
    have e3 : GoError.other 3 = e := Option.some.inj he.1
    subst e3
    exact he.2.1.trans (by decide)

/-- C5: for every recipient without `@`, once the file is read the run ends in
`log.Fatalf` with the text `address must contain @: ` and the recipient, and the only
call made is the reading of the file: no lookup, no dial and no SMTP command, whatever
the world answers. -/
theorem missing_at_is_fatal_before_network (w : World) (toAddr f c : List Nat)
    (hread : w.readFile f = (c, none)) (hat : 64 ∉ toAddr) :
    sendToKindle w toAddr f =
        ([.readFile f], .fatal (.text (bytesOf "address must contain @: " ++ toAddr))) ∧
      ∀ call ∈ (sendToKindle w toAddr f).1, call.isNetwork = false := by
  have hneg : lastIndex toAddr (bytesOf "@") < 0 := (lastIndex_at_neg toAddr).mpr hat
  have hfmt : sprintf (bytesOf "address must contain @: %s") [toAddr] =
      bytesOf "address must contain @: " ++ toAddr := by
    have e : bytesOf "address must contain @: %s" =
        bytesOf "address must contain @: " ++ 37 :: 115 :: [] := by decide
    rw [e, sprintf_verb _ _ _ _ (by decide)]
    simp [sprintf]
  have key : sendToKindle w toAddr f =
      ([.readFile f], .fatal (.text (bytesOf "address must contain @: " ++ toAddr))) := by
    simp only [sendToKindle, hread, hneg, if_true, hfmt]
  refine ⟨key, ?_⟩
  rw [key]
  intro call hc
  simp only [List.mem_singleton] at hc
  subst hc
  rfl

/-- C5 at the recipient `notanaddress`, in a world where every call would succeed. -/
theorem missing_at_is_fatal_before_network_witness :
    sendToKindle okWorld (bytesOf "notanaddress") (bytesOf "book.mobi") =
      ([.readFile (bytesOf "book.mobi")],
        .fatal (.text (bytesOf "address must contain @: " ++ bytesOf "notanaddress"))) :=
  (missing_at_is_fatal_before_network okWorld (bytesOf "notanaddress") (bytesOf "book.mobi")
    (bytesOf "Man") rfl (by decide)).1

/-- C6: for a server that accepts the handshake, `RCPT TO` and `DATA` (whatever it
answers to `MAIL FROM`), with `m` the message: when the write of the body reports no
error and `n < len(m)` bytes, the run ends in `log.Fatal(io.ErrShortWrite)`, an error
made by `sendToKindle` while the transport reported none; and when the write reports
an error, the run ends in `log.Fatal` of that error, whatever `n` is, and not of
`io.ErrShortWrite` unless the transport itself returned that value. -/
theorem short_write_is_reported (w : World) (toAddr f c : List Nat) (mx0 : MX) (mxs : List MX)
    (hread : w.readFile f = (c, none)) (hat : 64 ∈ toAddr)
    (hmx : w.lookupMX (toAddr.drop (lastIndex toAddr (bytesOf "@") + 1).toNat)
      = (mx0 :: mxs, none))
    (hdial : w.dialTimeout (bytesOf "tcp4") (mx0.host ++ bytesOf ":25") 10 = none)
    (hnew : w.newClient (bytesOf "ceh.bz") = none) (hrcpt : w.rcpt toAddr = none)
    (hdata : w.data = none) :
    (∀ n : Int, w.write (buildMessage toAddr (pathBase f) c) = (n, none) →
        n < ((buildMessage toAddr (pathBase f) c).length : Int) →
        (sendToKindle w toAddr f).2 = .fatal (.error .errShortWrite)) ∧
      (∀ (n : Int) (e : GoError), w.write (buildMessage toAddr (pathBase f) c) = (n, some e) →
        (sendToKindle w toAddr f).2 = .fatal (.error e) ∧
        (e ≠ .errShortWrite →
          (sendToKindle w toAddr f).2 ≠ .fatal (.error .errShortWrite))) := by
  have hs := smtpSession_write w toAddr (buildMessage toAddr (pathBase f) c) hnew hrcpt hdata
  rw [sendToKindle_connected w toAddr f c mx0 mxs hread hat hmx hdial]
  constructor
  · intro n hw hn
    rw [hs.1 n hw hn]
    rfl
  · intro n e hw
    rw [hs.2 n e hw]
    refine ⟨rfl, fun he h => he ?_⟩
    simp only [runDeferred_fatal, Ending.fatal.injEq, Logged.error.injEq] at h
    exact h

set_option maxRecDepth 100000 in
/-- C6 at a write that takes no byte and reports no error, and at a write that fails
with a transport error. -/
theorem short_write_is_reported_witness :
    (sendToKindle shortWriteWorld (bytesOf "user@example.com") (bytesOf "book.mobi")).2 =
        .fatal (.error .errShortWrite) ∧
      (sendToKindle brokenPipeWorld (bytesOf "user@example.com") (bytesOf "book.mobi")).2 =
        .fatal (.error (.other 32)) :=
  ⟨(short_write_is_reported shortWriteWorld (bytesOf "user@example.com") (bytesOf "book.mobi")
      (bytesOf "Man") ⟨bytesOf "mx.example.com", 10⟩ [] rfl (by decide) rfl rfl rfl rfl rfl).1
      0 rfl (by decide),
    ((short_write_is_reported brokenPipeWorld (bytesOf "user@example.com") (bytesOf "book.mobi")
      (bytesOf "Man") ⟨bytesOf "mx.example.com", 10⟩ [] rfl (by decide) rfl rfl rfl rfl rfl).2
      0 (.other 32) rfl).1⟩

/-- C7: for every recipient with `@` and every server that accepts the handshake and
rejects `RCPT TO` with the error `e` (the file read, the exchanger found and reached),
the run ends in `log.Fatal(e)` right after `RCPT TO`: `DATA` is never issued and no
body is written. -/
theorem rcpt_rejected_skips_data (w : World) (toAddr f c : List Nat) (mx0 : MX)
    (mxs : List MX) (e : GoError)
    (hread : w.readFile f = (c, none)) (hat : 64 ∈ toAddr)
    (hmx : w.lookupMX (toAddr.drop (lastIndex toAddr (bytesOf "@") + 1).toNat)
      = (mx0 :: mxs, none))
    (hdial : w.dialTimeout (bytesOf "tcp4") (mx0.host ++ bytesOf ":25") 10 = none)
    (hnew : w.newClient (bytesOf "ceh.bz") = none) (hrcpt : w.rcpt toAddr = some e) :
    sendToKindle w toAddr f =
        ([.readFile f, .lookupMX (toAddr.drop (lastIndex toAddr (bytesOf "@") + 1).toNat),
          .dialTimeout (bytesOf "tcp4") (mx0.host ++ bytesOf ":25") 10,
          .newClient (bytesOf "ceh.bz"), .mail (bytesOf "ceh@ceh.bz"), .rcpt toAddr],
          .fatal (.error e)) ∧
      Call.data ∉ (sendToKindle w toAddr f).1 ∧
      ∀ p, Call.write p ∉ (sendToKindle w toAddr f).1 := by
  have key : sendToKindle w toAddr f =
      ([.readFile f, .lookupMX (toAddr.drop (lastIndex toAddr (bytesOf "@") + 1).toNat),
        .dialTimeout (bytesOf "tcp4") (mx0.host ++ bytesOf ":25") 10,
        .newClient (bytesOf "ceh.bz"), .mail (bytesOf "ceh@ceh.bz"), .rcpt toAddr],
        .fatal (.error e)) := by
    rw [sendToKindle_connected w toAddr f c mx0 mxs hread hat hmx hdial,
      smtpSession_rcpt_rejected w toAddr _ e hnew hrcpt, runDeferred_fatal]
  refine ⟨key, ?_, ?_⟩
  · rw [key]; simp
  · intro p
    rw [key]; simp

/-- C7 at a server that answers `RCPT TO` with a 550 reply. -/
theorem rcpt_rejected_skips_data_witness :
    (sendToKindle rcptRejectedWorld (bytesOf "user@example.com") (bytesOf "book.mobi")).2 =
        .fatal (.error (.other 550)) ∧
      Call.data ∉
        (sendToKindle rcptRejectedWorld (bytesOf "user@example.com") (bytesOf "book.mobi")).1 :=
  have h := rcpt_rejected_skips_data rcptRejectedWorld (bytesOf "user@example.com")
    (bytesOf "book.mobi") (bytesOf "Man") ⟨bytesOf "mx.example.com", 10⟩ [] (.other 550)
    rfl (by decide) rfl rfl rfl rfl
  ⟨congrArg Prod.snd h.1, h.2.1⟩

set_option maxRecDepth 100000 in
/-- C8 fails as stated: a recipient with a bare line feed gives a message with a line
feed that no carriage return precedes. -/
theorem bare_line_feed_in_recipient :
    ¬ CRLFThroughout (buildMessage (bytesOf "user\n@example.com") (bytesOf "book.mobi") []) := by
  rw [crlfThroughout_iff_scan]
  decide

/-- C8, amended: for every recipient `r`, file name `n` and byte sequence `b`, the
empty one included, the message uses CRLF line terminators throughout exactly when `r`
and `n` do, that is when in `r` and in `n` every line feed is immediately preceded by a
carriage return and every carriage return is immediately followed by a line feed. -/
theorem crlf_throughout_iff (r n b : List Nat) :
    CRLFThroughout (buildMessage r n b) ↔ CRLFThroughout r ∧ CRLFThroughout n := by
  rw [crlfThroughout_iff_scan, crlfThroughout_iff_scan, crlfThroughout_iff_scan,
    scanCRLF_buildMessage, Bool.and_eq_true]

set_option maxRecDepth 100000 in
/-- C9 fails as stated: for the recipient `a@b.c`, CRLF, `Bcc: evil@x.y` the value of
`To: ` in the message is `a@b.c`, not the recipient, and for the file name
`my"book.mobi` the parameters `name=` and `filename=` are `my`, not the file name. -/
theorem header_value_cut_short :
    headerValue (bytesOf "To: ")
        (buildMessage (bytesOf "a@b.c\r\nBcc: evil@x.y") (bytesOf "my\"book.mobi") []) =
      some (bytesOf "a@b.c") ∧
    quotedParam (bytesOf "\tname=\"")
        (buildMessage (bytesOf "a@b.c\r\nBcc: evil@x.y") (bytesOf "my\"book.mobi") []) =
      some (bytesOf "my") ∧
    quotedParam (bytesOf "\tfilename=\"")
        (buildMessage (bytesOf "a@b.c\r\nBcc: evil@x.y") (bytesOf "my\"book.mobi") []) =
      some (bytesOf "my") ∧
    ¬ (headerValue (bytesOf "To: ")
        (buildMessage (bytesOf "a@b.c\r\nBcc: evil@x.y") (bytesOf "my\"book.mobi") []) =
      some (bytesOf "a@b.c\r\nBcc: evil@x.y")) ∧
    ¬ (quotedParam (bytesOf "\tname=\"")
        (buildMessage (bytesOf "a@b.c\r\nBcc: evil@x.y") (bytesOf "my\"book.mobi") []) =
      some (bytesOf "my\"book.mobi")) := by
  decide

set_option maxRecDepth 100000 in
/-- C9, amended: for every recipient `r`, file name `n` and byte sequence `b`, the value
of the header `To: ` of the message is exactly `r` and the values between the double
quotes of `name=` and of `filename=` are exactly `n`, exactly when `r` holds no CRLF
and `n` holds no double quote (34) and no CRLF; so it is for `user@example.com` and
`book.mobi`. The file name of every message that `sendToKindle` writes is `path.Base`
of the file argument: `name` for `dir/name` and for `name`, with or without trailing
slashes, `.` for the empty path and `/` for a path of slashes; for the argument
`books/book.mobi` the message written is the one of `book.mobi`. -/
theorem header_value_and_parameters_iff :
    (∀ r n b : List Nat,
      (headerValue (bytesOf "To: ") (buildMessage r n b) = some r ∧
        quotedParam (bytesOf "\tname=\"") (buildMessage r n b) = some n ∧
        quotedParam (bytesOf "\tfilename=\"") (buildMessage r n b) = some n) ↔
      (countOcc (bytesOf "\r\n") r = 0 ∧ 34 ∉ n ∧ countOcc (bytesOf "\r\n") n = 0)) ∧
    (∀ b : List Nat,
      headerValue (bytesOf "To: ")
          (buildMessage (bytesOf "user@example.com") (bytesOf "book.mobi") b) =
        some (bytesOf "user@example.com") ∧
      quotedParam (bytesOf "\tname=\"")
          (buildMessage (bytesOf "user@example.com") (bytesOf "book.mobi") b) =
        some (bytesOf "book.mobi") ∧
      quotedParam (bytesOf "\tfilename=\"")
          (buildMessage (bytesOf "user@example.com") (bytesOf "book.mobi") b) =
        some (bytesOf "book.mobi")) ∧
    (∀ (w : World) (toAddr f p : List Nat), Call.write p ∈ (sendToKindle w toAddr f).1 →
      p = buildMessage toAddr (pathBase f) (w.readFile f).1) ∧
    (∀ (dir name : List Nat) (k : Nat), name ≠ [] → 47 ∉ name →
      pathBase (dir ++ 47 :: name ++ List.replicate k 47) = name ∧
      pathBase (name ++ List.replicate k 47) = name) ∧
    (pathBase [] = bytesOf "." ∧ ∀ k, pathBase (List.replicate (k + 1) 47) = bytesOf "/") ∧
    Call.write (buildMessage (bytesOf "user@example.com") (bytesOf "book.mobi") (bytesOf "Man")) ∈
      (sendToKindle okWorld (bytesOf "user@example.com") (bytesOf "books/book.mobi")).1 := by
  have e : bytesOf "\r\n" = [13, 10] := by decide
  have key : ∀ r n b : List Nat,
      (headerValue (bytesOf "To: ") (buildMessage r n b) = some r ∧
        quotedParam (bytesOf "\tname=\"") (buildMessage r n b) = some n ∧
        quotedParam (bytesOf "\tfilename=\"") (buildMessage r n b) = some n) ↔
      (countOcc (bytesOf "\r\n") r = 0 ∧ 34 ∉ n ∧ countOcc (bytesOf "\r\n") n = 0) := by
    intro r n b
    rw [e]
    constructor
    · rintro ⟨hto, hname, _⟩
      have hr0 := (headerValue_to_iff r n b).mp hto
      exact ⟨hr0, (quotedParam_name_iff r n b hr0).mp hname⟩
    · rintro ⟨hr0, hq, hn0⟩
      exact ⟨(headerValue_to_iff r n b).mpr hr0,
        (quotedParam_name_iff r n b hr0).mpr ⟨hq, hn0⟩, quotedParam_filename r n b hr0 hq hn0⟩
  refine ⟨key, fun b => (key _ _ b).mpr (by decide), write_is_buildMessage,
    fun dir name k hne h => ⟨?_, ?_⟩, ⟨by decide, pathBase_slashes⟩, by decide⟩
  · rw [pathBase_trailing _ k (by simp), pathBase_dir dir name hne h]
  · rw [pathBase_trailing _ k hne, pathBase_plain name hne h]

/-- C10: for every recipient with `@` and every server that accepts the handshake (the
file read, the exchanger found and reached), a rejection of `MAIL FROM` does not end
the run: `RCPT TO` with the recipient is the next call, and the whole run is the one of
the same world with `MAIL FROM` accepted, since the result of `client.Mail` is dropped
and the test after it reads the nil error of the handshake. -/
theorem mail_rejection_is_ignored (w : World) (toAddr f c : List Nat) (mx0 : MX)
    (mxs : List MX) (e : GoError)
    (hread : w.readFile f = (c, none)) (hat : 64 ∈ toAddr)
    (hmx : w.lookupMX (toAddr.drop (lastIndex toAddr (bytesOf "@") + 1).toNat)
      = (mx0 :: mxs, none))
    (hdial : w.dialTimeout (bytesOf "tcp4") (mx0.host ++ bytesOf ":25") 10 = none)
    (hnew : w.newClient (bytesOf "ceh.bz") = none)
    (_hmail : w.mail (bytesOf "ceh@ceh.bz") = some e) :
    (∃ rest, (sendToKindle w toAddr f).1 =
        [.readFile f, .lookupMX (toAddr.drop (lastIndex toAddr (bytesOf "@") + 1).toNat),
          .dialTimeout (bytesOf "tcp4") (mx0.host ++ bytesOf ":25") 10,
          .newClient (bytesOf "ceh.bz"), .mail (bytesOf "ceh@ceh.bz"), .rcpt toAddr] ++ rest) ∧
      sendToKindle w toAddr f = sendToKindle { w with mail := fun _ => none } toAddr f := by
  refine ⟨?_, rfl⟩
  rw [sendToKindle_connected w toAddr f c mx0 mxs hread hat hmx hdial]
  obtain ⟨rest, hrest⟩ := runDeferred_starts _ _
    (smtpSession_starts w toAddr (buildMessage toAddr (pathBase f) c) hnew)
  exact ⟨rest, by simp [hrest]⟩

set_option maxRecDepth 100000 in
/-- C10 at a server that answers `MAIL FROM` with a 550 reply and accepts the rest: the
run goes on to the end and returns. -/
theorem mail_rejection_is_ignored_witness :
    Call.rcpt (bytesOf "user@example.com") ∈
        (sendToKindle mailRejectedWorld (bytesOf "user@example.com") (bytesOf "book.mobi")).1 ∧
      (sendToKindle mailRejectedWorld (bytesOf "user@example.com") (bytesOf "book.mobi")).2 =
        .returned :=
  have h := mail_rejection_is_ignored mailRejectedWorld (bytesOf "user@example.com")
    (bytesOf "book.mobi") (bytesOf "Man") ⟨bytesOf "mx.example.com", 10⟩ [] (.other 550)
    rfl (by decide) rfl rfl rfl rfl
  ⟨by obtain ⟨rest, hr⟩ := h.1; rw [hr]; simp, by rw [h.2]; decide⟩

end SendToKindle
